import Mathlib

/-!
# Skiperator: disruption budget and GCP auth config map reconcilers

A shallow embedding of

* `controllers/application/pod_disruption_budget.go`
  (`reconcilePodDisruptionBudget`, `determineMinAvailable`), and
* `controllers/configmap.go` (`ConfigMapReconciler.Reconcile`),

together with the library functions they call (`intstr`, `encoding/json` on the `Config`
struct, `controllerutil.SetControllerReference`, `controllerutil.CreateOrPatch`).

Conventions.  A Go `error` is `Option Error` (`none` is `nil`).  A Go `map[string]string` is an
association list, a `nil` map and an empty one both being `[]`.  Calls on the API client are
answered by the `Client` record handed to the reconciler; every call that writes or reports
(event, create, patch, status write) is appended to the trace the function returns, in the order
the calls are made.
-/

set_option autoImplicit false

namespace Skiperator

/-! ## Go values -/

/-- Go `map[string]string`. -/
abbrev GoMap := List (String × String)

/-- Map index expression `m[k]`: the zero value `""` when the key is missing. -/
def GoMap.index (m : GoMap) (k : String) : String :=
  (m.lookup k).getD ""

/-- Go `error` value.  `reason` and `code` are what `reasonAndCodeForError` of `apierrors`
reports for it: the status reason and the HTTP status code of an API status error, and `""`
(`StatusReasonUnknown`) and `0` for any other error. -/
structure Error where
  reason : String
  code : Int
  message : String
deriving DecidableEq, Repr

/-- Table `knownReasons` of `apierrors`: every status reason the package names, the unknown
reason `""` left out. -/
def knownReasons : List String :=
  ["Unauthorized", "Forbidden", "NotFound", "AlreadyExists", "Conflict", "Gone", "Invalid",
   "ServerTimeout", "Timeout", "TooManyRequests", "BadRequest", "MethodNotAllowed",
   "NotAcceptable", "RequestEntityTooLarge", "UnsupportedMediaType", "InternalError",
   "Expired", "ServiceUnavailable"]

/-- `apierrors.IsNotFound`: the reason is `NotFound`, or the reason is not a known one and the
status code is 404. -/
def IsNotFound (err : Option Error) : Bool :=
  match err with
  | none => false
  | some e =>
    if e.reason == "NotFound" then
      true
    else if !knownReasons.contains e.reason && e.code == 404 then
      true
    else
      false

/-- `fmt.Errorf` with the message already formatted: an error that is no API status. -/
def Errorf (message : String) : Error :=
  { reason := "", code := 0, message := message }

/-! ## `k8s.io/apimachinery/pkg/util/intstr` -/

/-- `intstr.Type`. -/
inductive IntstrType
  | Int
  | String
deriving DecidableEq, Repr

/-- `intstr.IntOrString`; `Type_` is the Go field `Type`. -/
structure IntOrString where
  Type_ : IntstrType
  IntVal : Int
  StrVal : String
deriving DecidableEq, Repr

/-- The zero value of `IntOrString` (`var value intstr.IntOrString`). -/
def IntOrString.zero : IntOrString :=
  { Type_ := IntstrType.Int, IntVal := 0, StrVal := "" }

/-- Conversion `int32(val)`. -/
def toInt32 (val : Int) : Int :=
  (val + 2147483648) % 4294967296 - 2147483648

/-- `intstr.FromInt`. -/
def FromInt (val : Int) : IntOrString :=
  { Type_ := IntstrType.Int, IntVal := toInt32 val, StrVal := "" }

/-- `intstr.FromString`. -/
def FromString (val : String) : IntOrString :=
  { Type_ := IntstrType.String, IntVal := 0, StrVal := val }

/-- `determineMinAvailable`.  The `else` branch calls `intstr.FromInt(0)` and drops the result,
so `value` keeps its zero value there.  The result is `&value`, never `nil`. -/
def determineMinAvailable (replicasAvailable : Nat) : Option IntOrString :=
  let value : IntOrString := IntOrString.zero
  let value : IntOrString :=
    if replicasAvailable > 1 then
      FromString "50%"
    else
      (fun (_ : IntOrString) => value) (FromInt 0)
  some value

/-! ## Object metadata and the kinds involved -/

/-- `types.NamespacedName` / `client.ObjectKey`. -/
structure ObjectKey where
  Namespace : String
  Name : String
deriving DecidableEq, Repr

/-- `metav1.OwnerReference`. -/
structure OwnerReference where
  APIVersion : String
  Kind : String
  Name : String
  UID : String
  Controller : Option Bool
  BlockOwnerDeletion : Option Bool
deriving DecidableEq, Repr

/-- `metav1.ObjectMeta`, the fields a reconciler or the store may set. -/
structure ObjectMeta where
  Namespace : String
  Name : String
  UID : String
  ResourceVersion : String
  Labels : GoMap
  Annotations : GoMap
  OwnerReferences : List OwnerReference
  Finalizers : List String
deriving DecidableEq, Repr

/-- `metav1.ObjectMeta{Namespace: ns, Name: name}`. -/
def ObjectMeta.named (ns name : String) : ObjectMeta :=
  { Namespace := ns, Name := name, UID := "", ResourceVersion := "", Labels := [],
    Annotations := [], OwnerReferences := [], Finalizers := [] }

/-- `corev1.ConfigMap`. -/
structure ConfigMap where
  ObjectMeta : ObjectMeta
  Immutable : Option Bool
  Data : GoMap
  BinaryData : GoMap
deriving DecidableEq, Repr

/-- The zero value `corev1.ConfigMap{}`. -/
def ConfigMap.zero : ConfigMap :=
  { ObjectMeta := ObjectMeta.named "" "", Immutable := none, Data := [], BinaryData := [] }

/-- `metav1.LabelSelector`; a match expression is kept as `(key, operator, values)`. -/
structure LabelSelector where
  MatchLabels : GoMap
  MatchExpressions : List (String × String × List String)
deriving DecidableEq, Repr

/-- `policyv1.PodDisruptionBudgetSpec`. -/
structure PodDisruptionBudgetSpec where
  MinAvailable : Option IntOrString
  Selector : Option LabelSelector
  MaxUnavailable : Option IntOrString
deriving DecidableEq, Repr

/-- `policyv1.PodDisruptionBudgetStatus`. -/
structure PodDisruptionBudgetStatus where
  ObservedGeneration : Int
  DisruptionsAllowed : Int
  CurrentHealthy : Int
  DesiredHealthy : Int
  ExpectedPods : Int
deriving DecidableEq, Repr

/-- `policyv1.PodDisruptionBudget`. -/
structure PodDisruptionBudget where
  ObjectMeta : ObjectMeta
  Spec : PodDisruptionBudgetSpec
  Status : PodDisruptionBudgetStatus
deriving DecidableEq, Repr

/-- The zero value of `PodDisruptionBudgetStatus`. -/
def PodDisruptionBudgetStatus.zero : PodDisruptionBudgetStatus :=
  { ObservedGeneration := 0, DisruptionsAllowed := 0, CurrentHealthy := 0, DesiredHealthy := 0,
    ExpectedPods := 0 }

/-- `skiperatorv1alpha1` GCP binding: `Spec.GCP.Auth.ServiceAccount`. -/
structure Auth where
  ServiceAccount : String
deriving DecidableEq, Repr

/-- `skiperatorv1alpha1.GCP`. -/
structure GCP where
  Auth : Auth
deriving DecidableEq, Repr

/-- `skiperatorv1alpha1.Replicas`; `Min` is the `uint` handed to `determineMinAvailable`. -/
structure Replicas where
  Min : Nat
  Max : Nat
deriving DecidableEq, Repr

/-- `skiperatorv1alpha1.ApplicationSpec`, the fields the two reconcilers and the test touch. -/
structure ApplicationSpec where
  Image : String
  Port : Nat
  Replicas : Replicas
  GCP : Option GCP
deriving DecidableEq, Repr

/-- `skiperatorv1alpha1.Application`. -/
structure Application where
  Namespace : String
  Name : String
  UID : String
  Spec : ApplicationSpec
deriving DecidableEq, Repr

/-! ## `encoding/json` on the `Config` struct

Go strings are modelled by Lean strings, so a string is always valid UTF-8 and the encoder's
replacement of invalid bytes by `�` has no counterpart here. -/

/-- Struct `Config`'s nested `CredentialSource`. -/
structure CredentialSource where
  File : String
deriving DecidableEq, Repr

/-- Struct `Config`; `Type_` is the Go field `Type`. -/
structure Config where
  Type_ : String
  Audience : String
  ServiceAccountImpersonationUrl : String
  SubjectTokenType : String
  TokenUrl : String
  CredentialSource : CredentialSource
deriving DecidableEq, Repr

/-- Table `hex` of `encoding/json`. -/
def hex : List Char := "0123456789abcdef".toList

/-- Table `htmlSafeSet` of `encoding/json`: the ASCII bytes written as they are when HTML
escaping is on (which it is for `json.Marshal`). -/
def htmlSafeSet (b : Nat) : Bool :=
  decide (32 ≤ b) && decide (b < 128) && b != 34 && b != 38 && b != 60 && b != 62 && b != 92

/-- One step of the string encoder of `encoding/json`: the output for one rune.  Control bytes
other than tab, newline and carriage return take the `\u00xx` form, as they do in the Go
releases up to 1.21. -/
def encodeRune (c : Char) : List Char :=
  let b := c.toNat
  if b < 128 then
    if htmlSafeSet b then [c]
    else if b = 92 ∨ b = 34 then [Char.ofNat 92, c]
    else if b = 10 then [Char.ofNat 92, 'n']
    else if b = 13 then [Char.ofNat 92, 'r']
    else if b = 9 then [Char.ofNat 92, 't']
    else [Char.ofNat 92, 'u', '0', '0', hex.getD (b / 16) '0', hex.getD (b % 16) '0']
  else if b = 8232 ∨ b = 8233 then
    [Char.ofNat 92, 'u', '2', '0', '2', hex.getD (b % 16) '0']
  else [c]

/-- The string encoder of `encoding/json`: a quoted, escaped string. -/
def encodeString (s : String) : String :=
  String.mk ([Char.ofNat 34] ++ (s.toList.map encodeRune).flatten ++ [Char.ofNat 34])

/-- `json.Marshal` on a `Config`: fields in declaration order under their `json` tags.  A
struct of strings never makes the encoder fail, so the error is always `nil`. -/
def Marshal (c : Config) : Except Error String :=
  Except.ok
    ("\x7b\"type\":" ++ encodeString c.Type_ ++
     ",\"audience\":" ++ encodeString c.Audience ++
     ",\"service_account_impersonation_url\":" ++ encodeString c.ServiceAccountImpersonationUrl ++
     ",\"subject_token_type\":" ++ encodeString c.SubjectTokenType ++
     ",\"token_url\":" ++ encodeString c.TokenUrl ++
     ",\"credential_source\":\x7b\"file\":" ++ encodeString c.CredentialSource.File ++
     "\x7d\x7d")

/-! ## `controllerutil.SetControllerReference` -/

/-- `schema.GroupVersion`. -/
structure GroupVersion where
  Group : String
  Version : String
deriving DecidableEq, Repr

/-- `schema.GroupVersionKind`. -/
structure GroupVersionKind where
  Group : String
  Version : String
  Kind : String
deriving DecidableEq, Repr

/-- Method `GroupVersion.String`. -/
def GroupVersionString (gv : GroupVersion) : String :=
  if gv.Group.length > 0 then gv.Group ++ "/" ++ gv.Version else gv.Version

/-- `schema.ParseGroupVersion`. -/
def ParseGroupVersion (gv : String) : Except Error GroupVersion :=
  if gv.toList.length = 0 ∨ gv = "/" then
    Except.ok { Group := "", Version := "" }
  else
    match gv.toList.count '/' with
    | 0 => Except.ok { Group := "", Version := gv }
    | 1 =>
      Except.ok
        { Group := String.mk (gv.toList.takeWhile (fun c => c != '/')),
          Version := String.mk ((gv.toList.dropWhile (fun c => c != '/')).drop 1) }
    | _ => Except.error (Errorf ("unexpected GroupVersion string: " ++ gv))

/-- What `apiutil.GVKForObject(application, scheme)` answers for the Application type: its
registered group, version and kind, or an error when the scheme does not know the type. -/
abbrev Scheme := Except Error GroupVersionKind

/-- `referSameObject` of `controllerutil`. -/
def referSameObject (a b : OwnerReference) : Bool :=
  match ParseGroupVersion a.APIVersion with
  | Except.error _ => false
  | Except.ok aGV =>
    match ParseGroupVersion b.APIVersion with
    | Except.error _ => false
    | Except.ok bGV => aGV.Group == bGV.Group && a.Kind == b.Kind && a.Name == b.Name

/-- `indexOwnerRef` of `controllerutil`; `none` is the Go result `-1`. -/
def indexOwnerRef (ownerReferences : List OwnerReference) (ref : OwnerReference) : Option Nat :=
  match ownerReferences with
  | [] => none
  | r :: rs =>
    if referSameObject r ref then some 0 else (indexOwnerRef rs ref).map (fun i => i + 1)

/-- `upsertOwnerRef` of `controllerutil`, as the new owner list. -/
def upsertOwnerRef (ref : OwnerReference) (owners : List OwnerReference) : List OwnerReference :=
  match indexOwnerRef owners ref with
  | none => owners ++ [ref]
  | some idx => owners.set idx ref

/-- `metav1.GetControllerOf`: the first owner reference flagged as controller. -/
def GetControllerOf (owners : List OwnerReference) : Option OwnerReference :=
  owners.find? (fun r => r.Controller == some true)

/-- `validateOwner` of `controllerutil`. -/
def validateOwner (ownerNs objNs : String) : Option Error :=
  if ownerNs != "" then
    if objNs == "" then
      some (Errorf ("cluster-scoped resource must not have a namespace-scoped owner, " ++
        "owner's namespace " ++ ownerNs))
    else if ownerNs != objNs then
      some (Errorf ("cross-namespace owner references are disallowed, owner's namespace " ++
        ownerNs ++ ", obj's namespace " ++ objNs))
    else none
  else none

/-- The controller reference `SetControllerReference` builds for an Application. -/
def controllerRef (owner : Application) (gvk : GroupVersionKind) : OwnerReference :=
  { APIVersion := GroupVersionString { Group := gvk.Group, Version := gvk.Version },
    Kind := gvk.Kind,
    Name := owner.Name,
    UID := owner.UID,
    Controller := some true,
    BlockOwnerDeletion := some true }

/-- `controllerutil.SetControllerReference(owner, controlled, scheme)` on the metadata of the
controlled object.  On an error the object is as it was. -/
def SetControllerReference (owner : Application) (controlled : ObjectMeta) (scheme : Scheme) :
    Except Error ObjectMeta :=
  match validateOwner owner.Namespace controlled.Namespace with
  | some err => Except.error err
  | none =>
    match scheme with
    | Except.error err => Except.error err
    | Except.ok gvk =>
      let ref := controllerRef owner gvk
      match GetControllerOf controlled.OwnerReferences with
      | some existing =>
        if !referSameObject existing ref then
          Except.error (Errorf ("Object " ++ controlled.Namespace ++ "/" ++ controlled.Name ++
            " is already owned by another " ++ existing.Kind ++ " controller " ++ existing.Name))
        else
          Except.ok { controlled with
            OwnerReferences := upsertOwnerRef ref controlled.OwnerReferences }
      | none =>
        Except.ok { controlled with
          OwnerReferences := upsertOwnerRef ref controlled.OwnerReferences }

/-! ## The API client and `controllerutil.CreateOrPatch` -/

/-- The answers of the API client (`client.Client`) on objects of one kind: what `Get` returns
for a key, and whether `Create`, `Patch` and `Status().Patch` succeed.  `Patch` receives the
object and the copy the merge patch is computed from. -/
structure Client (α : Type) where
  Get : ObjectKey → Except Error α
  Create : α → Option Error
  Patch : α → α → Option Error
  StatusPatch : α → α → Option Error

/-- One entry of the trace: a call that writes to the store, records an event or reports to the
status tracker. -/
inductive Call (α : Type)
  | Eventf (object : ObjectKey) (eventtype reason message : String)
  | Create (obj : α)
  | Patch (obj base : α)
  | StatusPatch (obj base : α)
  | SetControllerProgressing (controllerName : String)
  | SetControllerError (controllerName : String) (err : Error)
  | SetControllerFinishedOutcome (controllerName : String) (err : Option Error)
deriving DecidableEq, Repr

/-- `controllerutil.OperationResult`. -/
inductive OperationResult
  | None
  | Created
  | Updated
  | UpdatedStatus
  | UpdatedStatusOnly
deriving DecidableEq, Repr

/-- What `CreateOrPatch` needs to know of a kind: the key of an object, its `status` field when
its unstructured form has one, and the unstructured form without `status`. -/
structure ObjectKind (α σ : Type) where
  ObjectKeyFromObject : α → ObjectKey
  status : α → Option σ
  withoutStatus : α → α

/-- A `MutateFn` closing over the object: from the object to the error returned, the object as
the function leaves it, and the calls it made. -/
abbrev MutateFn (α : Type) := α → Option Error × α × List (Call α)

/-- `mutate` of `controllerutil`: runs the function and refuses a changed key. -/
def mutate {α : Type} (ObjectKeyFromObject : α → ObjectKey) (f : MutateFn α) (key : ObjectKey)
    (obj : α) : Option Error × α × List (Call α) :=
  match f obj with
  | (some err, obj, calls) => (some err, obj, calls)
  | (none, obj, calls) =>
    if key ≠ ObjectKeyFromObject obj then
      (some (Errorf "MutateFn cannot mutate object name and/or object namespace"), obj, calls)
    else
      (none, obj, calls)

/-- `controllerutil.CreateOrPatch(ctx, c, obj, f)`: the operation result, the error, and the
calls made.  The conversions to unstructured form cannot fail on the typed objects used here.
After a successful `Patch` the client overwrites the object with the server's answer; the
status patch that may follow is given the object as it was before that. -/
def CreateOrPatch {α σ : Type} [DecidableEq α] [DecidableEq σ] (k : ObjectKind α σ)
    (c : Client α) (obj : α) (f : MutateFn α) : OperationResult × Option Error × List (Call α) :=
  let key := k.ObjectKeyFromObject obj
  match c.Get key with
  | Except.error err =>
    if !IsNotFound (some err) then
      (OperationResult.None, some err, [])
    else
      match mutate k.ObjectKeyFromObject f key obj with
      | (some err, _, calls) => (OperationResult.None, some err, calls)
      | (none, obj, calls) =>
        match c.Create obj with
        | some err => (OperationResult.None, some err, calls ++ [Call.Create obj])
        | none => (OperationResult.Created, none, calls ++ [Call.Create obj])
  | Except.ok obj =>
    let base := obj
    let before := k.withoutStatus obj
    let beforeStatus := k.status obj
    match mutate k.ObjectKeyFromObject f key obj with
    | (some err, _, calls) => (OperationResult.None, some err, calls)
    | (none, obj, calls) =>
      let after := k.withoutStatus obj
      let afterStatus := k.status obj
      let patched : OperationResult × Option Error × List (Call α) :=
        if before ≠ after then
          match c.Patch obj base with
          | some err => (OperationResult.None, some err, calls ++ [Call.Patch obj base])
          | none => (OperationResult.Updated, none, calls ++ [Call.Patch obj base])
        else
          (OperationResult.None, none, calls)
      match patched with
      | (result, some err, calls) => (result, some err, calls)
      | (result, none, calls) =>
        if (beforeStatus.isSome || afterStatus.isSome) ∧ beforeStatus ≠ afterStatus then
          match c.StatusPatch obj base with
          | some err => (result, some err, calls ++ [Call.StatusPatch obj base])
          | none =>
            (if result = OperationResult.Updated then OperationResult.UpdatedStatus
              else OperationResult.UpdatedStatusOnly,
             none, calls ++ [Call.StatusPatch obj base])
        else
          (result, none, calls)

/-! ## `controllers/configmap.go` -/

/-- `client.ObjectKeyFromObject` on object metadata. -/
def ObjectMeta.key (m : ObjectMeta) : ObjectKey :=
  { Namespace := m.Namespace, Name := m.Name }

/-- A `ConfigMap` has no `status`. -/
def configMapKind : ObjectKind ConfigMap Unit :=
  { ObjectKeyFromObject := fun o => o.ObjectMeta.key
    status := fun _ => none
    withoutStatus := fun o => o }

/-- `ConfigMapReconciler`: its client and scheme.  The event recorder has no state of its own;
the events it is given are entries of the trace. -/
structure ConfigMapReconciler where
  client : Client ConfigMap
  scheme : Scheme

/-- The local `ConfStruct` of the closure (lines 77-86), from the shared record and the declared
GCP binding. -/
def ConfigMapReconciler.ConfStruct (gcpIdentityConfigMap : ConfigMap) (gcp : GCP) : Config :=
  { Type_ := "external_account"
    Audience := "identitynamespace:" ++
      gcpIdentityConfigMap.Data.index "workloadIdentityPool" ++ ":" ++
      gcpIdentityConfigMap.Data.index "identityProvider"
    ServiceAccountImpersonationUrl :=
      "https://iamcredentials.googleapis.com/v1/projects/-/serviceAccounts/" ++
      gcp.Auth.ServiceAccount ++ ":generateAccessToken"
    SubjectTokenType := "urn:ietf:params:oauth:token-type:jwt"
    TokenUrl := "https://sts.googleapis.com/v1/token"
    CredentialSource := { File := "/var/run/secrets/tokens/gcp-ksa/token" } }

/-- The closure handed to `CreateOrPatch` in `ConfigMapReconciler.Reconcile` (lines 69-99), as
a function of the `gcpAuthConfigMap` it works on. -/
def ConfigMapReconciler.mutateFn (r : ConfigMapReconciler) (application : Application)
    (gcpIdentityConfigMap : ConfigMap) : MutateFn ConfigMap :=
  fun gcpAuthConfigMap =>
    match SetControllerReference application gcpAuthConfigMap.ObjectMeta r.scheme with
    | Except.error err => (some err, gcpAuthConfigMap, [])
    | Except.ok objectMeta =>
      let gcpAuthConfigMap := { gcpAuthConfigMap with ObjectMeta := objectMeta }
      match application.Spec.GCP with
      | some gcp =>
        let ConfStruct := ConfigMapReconciler.ConfStruct gcpIdentityConfigMap gcp
        match Marshal ConfStruct with
        | Except.error err => (some err, gcpAuthConfigMap, [])
        | Except.ok ConfByte =>
          (none, { gcpAuthConfigMap with Data := [("config", ConfByte)] }, [])
      | none => (none, gcpAuthConfigMap, [])

/-- The `gcpAuthConfigMap` that `Reconcile` hands to `CreateOrPatch` (lines 67-68). -/
def ConfigMapReconciler.gcpAuthConfigMap (application : Application) : ConfigMap :=
  let gcpAuthConfigMapName := application.Name ++ "-gcp-auth"
  { ConfigMap.zero with
    ObjectMeta := ObjectMeta.named application.Namespace gcpAuthConfigMapName }

/-- `ConfigMapReconciler.Reconcile`: the error returned (the `reconcile.Result` is always the
empty one) and the trace.  `FillDefaults` stands for the method `Application.FillDefaults` of
the API package; from line 52 on `application` is the Application as that method leaves it. -/
def ConfigMapReconciler.Reconcile (r : ConfigMapReconciler)
    (FillDefaults : Application → Application) (application : Application) :
    Option Error × List (Call ConfigMap) :=
  let application := FillDefaults application
  let gcpIdentityConfigMap := ConfigMap.zero
  let got : Option Error × ConfigMap :=
    match r.client.Get { Namespace := "skiperator-system", Name := "gcp-identity-config" } with
    | Except.error err => (some err, gcpIdentityConfigMap)
    | Except.ok found => (none, found)
  let err := got.1
  let gcpIdentityConfigMap := got.2
  let apply : List (Call ConfigMap) → Option Error × List (Call ConfigMap) := fun events =>
    let gcpAuthConfigMap := ConfigMapReconciler.gcpAuthConfigMap application
    let applied := CreateOrPatch configMapKind r.client gcpAuthConfigMap
      (r.mutateFn application gcpIdentityConfigMap)
    (applied.2.1, events ++ applied.2.2)
  if IsNotFound err then
    apply [Call.Eventf { Namespace := application.Namespace, Name := application.Name }
      "Warning" "Missing"
      "Cannot find configmap named gcp-identity-config in namespace skiperator-system"]
  else if err ≠ none then
    (err, [])
  else
    apply []

/-! ## `controllers/application/pod_disruption_budget.go` -/

/-- A `PodDisruptionBudget` always has a `status` in its unstructured form. -/
def podDisruptionBudgetKind : ObjectKind PodDisruptionBudget PodDisruptionBudgetStatus :=
  { ObjectKeyFromObject := fun o => o.ObjectMeta.key
    status := fun o => some o.Status
    withoutStatus := fun o => { o with Status := PodDisruptionBudgetStatus.zero } }

/-- `ApplicationReconciler`, as far as `reconcilePodDisruptionBudget` uses it: `client` and
`scheme` are what `GetClient()` and `GetScheme()` return.  The other fields stand for helpers of
this repository whose code is not among the sources, taken as parameters.
`SetLabelsFromApplication` and `util.SetCommonAnnotations` receive the budget as a
`client.Object`, that is through its metadata; they are given as the new label map and the new
annotation map of the object, as functions of the old one (labels and standard annotations are
the metadata that the spec, section 4.3, lists among the fields this system owns).  The three
status writes are given as the error each returns, which the caller drops; what they record is
an entry of the trace, and they leave the name, namespace, UID and spec of the Application as
they are. -/
structure ApplicationReconciler where
  client : Client PodDisruptionBudget
  scheme : Scheme
  SetLabelsFromApplication : Application → GoMap → GoMap
  SetCommonAnnotations : GoMap → GoMap
  SetControllerProgressing : Application → String → Option Error
  SetControllerError : Application → String → Error → Option Error
  SetControllerFinishedOutcome : Application → String → Option Error → Option Error

/-- The closure handed to `CreateOrPatch` in `reconcilePodDisruptionBudget` (lines 21-38), as a
function of the `pdb` it works on. -/
def ApplicationReconciler.mutateFn (r : ApplicationReconciler) (application : Application)
    (controllerName : String) (labels : GoMap) : MutateFn PodDisruptionBudget :=
  fun pdb =>
    match SetControllerReference application pdb.ObjectMeta r.scheme with
    | Except.error err =>
      let _ := r.SetControllerError application controllerName err
      (some err, pdb, [Call.SetControllerError controllerName err])
    | Except.ok objectMeta =>
      let pdb := { pdb with ObjectMeta := objectMeta }
      let pdb := { pdb with ObjectMeta := { pdb.ObjectMeta with
        Labels := r.SetLabelsFromApplication application pdb.ObjectMeta.Labels } }
      let pdb := { pdb with ObjectMeta := { pdb.ObjectMeta with
        Annotations := r.SetCommonAnnotations pdb.ObjectMeta.Annotations } }
      let pdb := { pdb with
        Spec :=
          { Selector := some { MatchLabels := labels, MatchExpressions := [] }
            MinAvailable := determineMinAvailable application.Spec.Replicas.Min
            MaxUnavailable := none } }
      (none, pdb, [])

/-- The `pdb` that `reconcilePodDisruptionBudget` hands to `CreateOrPatch` (line 20). -/
def ApplicationReconciler.pdb (application : Application) : PodDisruptionBudget :=
  { ObjectMeta := ObjectMeta.named application.Namespace application.Name
    Spec := { MinAvailable := none, Selector := none, MaxUnavailable := none }
    Status := PodDisruptionBudgetStatus.zero }

/-- `ApplicationReconciler.reconcilePodDisruptionBudget`: the error returned (the
`reconcile.Result` is always the empty one) and the trace. -/
def ApplicationReconciler.reconcilePodDisruptionBudget (r : ApplicationReconciler)
    (application : Application) : Option Error × List (Call PodDisruptionBudget) :=
  let controllerName := "PodDisruptionBudget"
  let _ := r.SetControllerProgressing application controllerName
  let labels : GoMap := [("app", application.Name)]
  let pdb := ApplicationReconciler.pdb application
  let applied := CreateOrPatch podDisruptionBudgetKind r.client pdb
    (r.mutateFn application controllerName labels)
  let err := applied.2.1
  let _ := r.SetControllerFinishedOutcome application controllerName err
  (err,
    [Call.SetControllerProgressing controllerName] ++ applied.2.2 ++
      [Call.SetControllerFinishedOutcome controllerName err])

/-! ## Reading a trace -/

/-- The object a call sends to the store, when the call is a write. -/
def Call.written {α : Type} : Call α → Option α
  | Call.Create obj => some obj
  | Call.Patch obj _ => some obj
  | Call.StatusPatch obj _ => some obj
  | _ => none

/-- The objects a trace writes to the store, in order. -/
def writes {α : Type} (trace : List (Call α)) : List α :=
  trace.filterMap Call.written

/-- Whether a call reports to the status tracker. -/
def Call.isStatusWrite {α : Type} : Call α → Bool
  | Call.SetControllerProgressing _ => true
  | Call.SetControllerError _ _ => true
  | Call.SetControllerFinishedOutcome _ _ => true
  | _ => false

/-- The status writes of a trace, in order. -/
def statusWrites {α : Type} (trace : List (Call α)) : List (Call α) :=
  trace.filter Call.isStatusWrite

/-! ## Sample objects

The Application `minimal` of the test suite, the same Application with a GCP binding, and API
clients over a store that holds nothing or exactly one object. -/

/-- The Application `minimal` of `application_test.go`, in namespace `ns1`, with the replica
bounds 2 and 5 that the test observes on its scaler. -/
def minimal : Application :=
  { Namespace := "ns1", Name := "minimal", UID := "uid-minimal",
    Spec := { Image := "image", Port := 8080, Replicas := { Min := 2, Max := 5 }, GCP := none } }

/-- The Application `minimal` with a GCP binding. -/
def minimalGCP : Application :=
  { minimal with
    Spec := { minimal.Spec with GCP := some { Auth := { ServiceAccount := "sa@project" } } } }

/-- The scheme with the Application type registered. -/
def registered : Scheme :=
  Except.ok { Group := "skiperator.kartverket.no", Version := "v1alpha1", Kind := "Application" }

/-- The answer of the API server for an object that does not exist. -/
def notFound : Error :=
  { reason := "NotFound", code := 404, message := "not found" }

/-- The answer of an API server that cannot be reached. -/
def unavailable : Error :=
  { reason := "ServiceUnavailable", code := 503,
    message := "the server is currently unable to handle the request" }

/-- The answer of a server that sends a bare 404, a status without a reason. -/
def pageNotFound : Error :=
  { reason := "", code := 404, message := "404 page not found" }

/-- A client over an empty store: every `Get` is NotFound, every write succeeds. -/
def emptyStore (α : Type) : Client α :=
  { Get := fun _ => Except.error notFound
    Create := fun _ => none
    Patch := fun _ _ => none
    StatusPatch := fun _ _ => none }

/-- A client over a store holding the given objects under the given keys: `Get` finds the first
object stored under the key, every write succeeds. -/
def storeOf {α : Type} (objects : List (ObjectKey × α)) : Client α :=
  { Get := fun key =>
      match objects.lookup key with
      | some obj => Except.ok obj
      | none => Except.error notFound
    Create := fun _ => none
    Patch := fun _ _ => none
    StatusPatch := fun _ _ => none }

/-- A client whose every `Get` fails because the server cannot be reached. -/
def brokenStore (α : Type) : Client α :=
  { Get := fun _ => Except.error unavailable
    Create := fun _ => some unavailable
    Patch := fun _ _ => some unavailable
    StatusPatch := fun _ _ => some unavailable }

/-- The shared record `gcp-identity-config`. -/
def identityConfig : ConfigMap :=
  { ConfigMap.zero with
    ObjectMeta := ObjectMeta.named "skiperator-system" "gcp-identity-config"
    Data := [("workloadIdentityPool", "pool"), ("identityProvider", "provider")] }

/-- An application reconciler over the given client: labels and annotations are left as they
are and every status write succeeds. -/
def plainReconciler (client : Client PodDisruptionBudget) : ApplicationReconciler :=
  { client := client
    scheme := registered
    SetLabelsFromApplication := fun _ labels => labels
    SetCommonAnnotations := fun annotations => annotations
    SetControllerProgressing := fun _ _ => none
    SetControllerError := fun _ _ _ => none
    SetControllerFinishedOutcome := fun _ _ _ => none }

/-- Map assignment `m[k] = v`: the entry of `k` is replaced where it stands, or added. -/
def GoMap.assign (m : GoMap) (k v : String) : GoMap :=
  match m with
  | [] => [(k, v)]
  | (k1, v1) :: rest => if k1 = k then (k, v) :: rest else (k1, v1) :: GoMap.assign rest k v

/-- An application reconciler over the given client whose helpers do set something: the label
`app` is set to the name of the Application and the annotation
`argocd.argoproj.io/sync-options` to `Prune=false`; every status write succeeds. -/
def labellingReconciler (client : Client PodDisruptionBudget) : ApplicationReconciler :=
  { client := client
    scheme := registered
    SetLabelsFromApplication := fun application labels =>
      GoMap.assign labels "app" application.Name
    SetCommonAnnotations := fun annotations =>
      GoMap.assign annotations "argocd.argoproj.io/sync-options" "Prune=false"
    SetControllerProgressing := fun _ _ => none
    SetControllerError := fun _ _ _ => none
    SetControllerFinishedOutcome := fun _ _ _ => none }

/-- The disruption budget a first run for `minimalGCP` produces from the new object. -/
def createdBudget : PodDisruptionBudget :=
  ((labellingReconciler (emptyStore PodDisruptionBudget)).mutateFn minimalGCP
    "PodDisruptionBudget" [("app", "minimal")] (ApplicationReconciler.pdb minimalGCP)).2.1

/-- The record a first run for `minimalGCP` produces from the new object, the shared record
being `identityConfig`. -/
def createdRecord : ConfigMap :=
  (ConfigMapReconciler.mutateFn { client := emptyStore ConfigMap, scheme := registered }
    minimalGCP identityConfig (ConfigMapReconciler.gcpAuthConfigMap minimalGCP)).2.1

/-- A controller reference to some other owner, a Deployment named `other`. -/
def foreignRef : OwnerReference :=
  { APIVersion := "apps/v1", Kind := "Deployment", Name := "other", UID := "uid-other",
    Controller := some true, BlockOwnerDeletion := some true }

/-- A stored disruption budget `ns1/minimal` that another controller owns. -/
def foreignBudget : PodDisruptionBudget :=
  { ApplicationReconciler.pdb minimal with
    ObjectMeta := { ObjectMeta.named "ns1" "minimal" with
      UID := "uid-pdb", ResourceVersion := "7", OwnerReferences := [foreignRef] } }

/-- A stored record `ns1/minimal-gcp-auth` that another controller owns. -/
def foreignRecord : ConfigMap :=
  { ConfigMap.zero with
    ObjectMeta := { ObjectMeta.named "ns1" "minimal-gcp-auth" with
      UID := "uid-cm", ResourceVersion := "7", OwnerReferences := [foreignRef] }
    Data := [("config", "stale")] }

/-- A stored record `ns1/minimal-gcp-auth` without owner, to which an operator has added the
entry `note`. -/
def annotatedRecord : ConfigMap :=
  { ConfigMap.zero with
    ObjectMeta := { ObjectMeta.named "ns1" "minimal-gcp-auth" with
      UID := "uid-cm", ResourceVersion := "7" }
    Data := [("note", "kept by hand")] }


/-! ## Lemmas on `mutate` and `CreateOrPatch` -/

theorem mutate_none {α : Type} (K : α → ObjectKey) (f : MutateFn α) (key : ObjectKey)
    (obj o : α) (calls : List (Call α)) (h : mutate K f key obj = (none, o, calls)) :
    f obj = (none, o, calls) ∧ key = K o := by
  unfold mutate at h
  rcases hf : f obj with ⟨_ | e, o1, c1⟩
  · rw [hf] at h
    simp only at h
    by_cases hk : key = K o1
    · simp [hk] at h
      obtain ⟨h1, h2⟩ := h
      subst h1; subst h2
      exact ⟨rfl, hk⟩
    · simp [hk] at h
  · rw [hf] at h
    simp at h

theorem mutate_some_of {α : Type} (K : α → ObjectKey) (f : MutateFn α) (key : ObjectKey)
    (obj o : α) (e : Error) (calls : List (Call α)) (h : f obj = (some e, o, calls)) :
    mutate K f key obj = (some e, o, calls) := by
  unfold mutate
  rw [h]

theorem mutate_none_of {α : Type} (K : α → ObjectKey) (f : MutateFn α) (key : ObjectKey)
    (obj o : α) (calls : List (Call α)) (h : f obj = (none, o, calls)) (hk : key = K o) :
    mutate K f key obj = (none, o, calls) := by
  unfold mutate
  rw [h]
  simp [hk]

theorem mutate_calls {α : Type} (K : α → ObjectKey) (f : MutateFn α) (key : ObjectKey)
    (obj : α) : (mutate K f key obj).2.2 = (f obj).2.2 := by
  unfold mutate
  rcases hf : f obj with ⟨_ | e, o1, c1⟩
  · simp only
    split <;> rfl
  · rfl

section CreateOrPatchLemmas

variable {α σ : Type} [DecidableEq α] [DecidableEq σ]

theorem CreateOrPatch_get_error (k : ObjectKind α σ) (c : Client α) (obj : α) (f : MutateFn α)
    (err : Error) (hget : c.Get (k.ObjectKeyFromObject obj) = Except.error err)
    (hnf : IsNotFound (some err) = false) :
    CreateOrPatch k c obj f = (OperationResult.None, some err, []) := by
  unfold CreateOrPatch
  simp [hget, hnf]

theorem CreateOrPatch_mutate_error (k : ObjectKind α σ) (c : Client α) (obj start x : α)
    (f : MutateFn α) (e : Error) (calls : List (Call α))
    (hstart : c.Get (k.ObjectKeyFromObject obj) = Except.ok start ∨
      (start = obj ∧ ∃ err, c.Get (k.ObjectKeyFromObject obj) = Except.error err ∧
        IsNotFound (some err) = true))
    (hf : f start = (some e, x, calls)) :
    CreateOrPatch k c obj f = (OperationResult.None, some e, calls) := by
  have hm := mutate_some_of k.ObjectKeyFromObject f (k.ObjectKeyFromObject obj) start x e calls hf
  unfold CreateOrPatch
  rcases hstart with hget | ⟨rfl, err, hget, hnf⟩
  · simp [hget, hm]
  · simp [hget, hnf, hm]

theorem CreateOrPatch_create (k : ObjectKind α σ) (c : Client α) (obj o : α)
    (f : MutateFn α) (err : Error) (calls : List (Call α))
    (hget : c.Get (k.ObjectKeyFromObject obj) = Except.error err)
    (hnf : IsNotFound (some err) = true)
    (hm : mutate k.ObjectKeyFromObject f (k.ObjectKeyFromObject obj) obj = (none, o, calls)) :
    (CreateOrPatch k c obj f).2 = (c.Create o, calls ++ [Call.Create o]) := by
  unfold CreateOrPatch
  simp only [hget, hnf, hm]
  cases hc : c.Create o <;> simp

omit [DecidableEq α] [DecidableEq σ] in
theorem writes_append (s t : List (Call α)) : writes (s ++ t) = writes s ++ writes t := by
  simp [writes]

omit [DecidableEq σ] in
theorem status_isSome_of_ne (a b : Option σ) (h : ¬ a = b) :
    a.isSome = true ∨ b.isSome = true := by
  cases a <;> cases b <;> simp_all

theorem CreateOrPatch_patch_calls (k : ObjectKind α σ) (c : Client α) (obj start o : α)
    (f : MutateFn α) (calls : List (Call α))
    (hget : c.Get (k.ObjectKeyFromObject obj) = Except.ok start)
    (hm : mutate k.ObjectKeyFromObject f (k.ObjectKeyFromObject obj) start = (none, o, calls)) :
    ∃ tail, (CreateOrPatch k c obj f).2.2 = calls ++ tail ∧
      (∀ x ∈ tail, x = Call.Patch o start ∨ x = Call.StatusPatch o start) ∧
      (k.withoutStatus start = k.withoutStatus o → k.status start = k.status o → tail = []) ∧
      (tail = [] → k.withoutStatus start = k.withoutStatus o ∧ k.status start = k.status o) := by
  unfold CreateOrPatch
  simp only [hget, hm]
  by_cases hne : k.withoutStatus start = k.withoutStatus o
  · by_cases hst : k.status start = k.status o
    · exact ⟨[], by simp [hne, hst], by simp, by simp, fun _ => ⟨hne, hst⟩⟩
    · have hsome := status_isSome_of_ne _ _ hst
      refine ⟨[Call.StatusPatch o start], ?_, by simp, by simp [hst], by simp⟩
      cases hsp : c.StatusPatch o start <;> simp [hne, hst, hsp, hsome]
  · cases hp : c.Patch o start
    · by_cases hst : k.status start = k.status o
      · exact ⟨[Call.Patch o start], by simp [hne, hst, hp], by simp, by simp [hne], by simp⟩
      · have hsome := status_isSome_of_ne _ _ hst
        refine ⟨[Call.Patch o start, Call.StatusPatch o start], ?_, by simp, by simp [hne],
          by simp⟩
        cases hsp : c.StatusPatch o start <;> simp [hne, hst, hp, hsp, hsome]
    · exact ⟨[Call.Patch o start], by simp [hne, hp], by simp, by simp [hne], by simp⟩

omit [DecidableEq α] [DecidableEq σ] in
theorem writes_of_patches (o start : α) (tail : List (Call α))
    (h : ∀ x ∈ tail, x = Call.Patch o start ∨ x = Call.StatusPatch o start) :
    ∀ x ∈ writes tail, x = o := by
  intro x hx
  simp only [writes, List.mem_filterMap] at hx
  obtain ⟨c, hc, hw⟩ := hx
  rcases h c hc with rfl | rfl <;> simpa [Call.written] using hw.symm

theorem CreateOrPatch_written (k : ObjectKind α σ) (c : Client α) (obj : α) (f : MutateFn α)
    (hf : ∀ x, writes (f x).2.2 = []) (o : α)
    (ho : o ∈ writes (CreateOrPatch k c obj f).2.2) :
    ∃ start calls,
      (c.Get (k.ObjectKeyFromObject obj) = Except.ok start ∨
        (start = obj ∧ ∃ err, c.Get (k.ObjectKeyFromObject obj) = Except.error err ∧
          IsNotFound (some err) = true)) ∧
      f start = (none, o, calls) ∧ k.ObjectKeyFromObject obj = k.ObjectKeyFromObject o := by
  cases hget : c.Get (k.ObjectKeyFromObject obj) with
  | error err =>
    by_cases hnf : IsNotFound (some err) = true
    · rcases hm : mutate k.ObjectKeyFromObject f (k.ObjectKeyFromObject obj) obj with
        ⟨_ | e, o1, calls⟩
      · have hfo := mutate_none _ _ _ _ _ _ hm
        have hc : writes calls = [] := by
          have := hf obj
          rw [hfo.1] at this
          exact this
        rw [CreateOrPatch_create k c obj o1 f err calls hget hnf hm, writes_append, hc] at ho
        have ho1 : o = o1 := by simpa [writes, Call.written] using ho
        subst ho1
        exact ⟨obj, calls, Or.inr ⟨rfl, err, rfl, hnf⟩, hfo.1, hfo.2⟩
      · have hc : writes calls = [] := by
          have h1 := hf obj
          have h2 := mutate_calls k.ObjectKeyFromObject f (k.ObjectKeyFromObject obj) obj
          rw [hm] at h2
          rw [← h2] at h1
          exact h1
        have : (CreateOrPatch k c obj f).2.2 = calls := by
          unfold CreateOrPatch
          simp [hget, hnf, hm]
        rw [this, hc] at ho
        simp at ho
    · have hnf2 : IsNotFound (some err) = false := by simpa using hnf
      rw [CreateOrPatch_get_error k c obj f err hget hnf2] at ho
      simp [writes] at ho
  | ok start =>
    rcases hm : mutate k.ObjectKeyFromObject f (k.ObjectKeyFromObject obj) start with
      ⟨_ | e, o1, calls⟩
    · have hfo := mutate_none _ _ _ _ _ _ hm
      have hc : writes calls = [] := by
        have := hf start
        rw [hfo.1] at this
        exact this
      obtain ⟨tail, h1, h2, -, -⟩ := CreateOrPatch_patch_calls k c obj start o1 f calls hget hm
      rw [h1, writes_append, hc] at ho
      have ho1 : o = o1 := writes_of_patches o1 start tail h2 o (by simpa using ho)
      subst ho1
      exact ⟨start, calls, Or.inl rfl, hfo.1, hfo.2⟩
    · have hc : writes calls = [] := by
        have h1 := hf start
        have h2 := mutate_calls k.ObjectKeyFromObject f (k.ObjectKeyFromObject obj) start
        rw [hm] at h2
        rw [← h2] at h1
        exact h1
      have : (CreateOrPatch k c obj f).2.2 = calls := by
        unfold CreateOrPatch
        simp [hget, hm]
      rw [this, hc] at ho
      simp at ho

theorem CreateOrPatch_created (k : ObjectKind α σ) (c : Client α) (obj : α) (f : MutateFn α)
    (hf : ∀ x, (f x).2.2 = []) (o : α)
    (ho : Call.Create o ∈ (CreateOrPatch k c obj f).2.2) :
    ∃ err, c.Get (k.ObjectKeyFromObject obj) = Except.error err ∧
      IsNotFound (some err) = true ∧ f obj = (none, o, []) := by
  cases hget : c.Get (k.ObjectKeyFromObject obj) with
  | error err =>
    by_cases hnf : IsNotFound (some err) = true
    · rcases hm : mutate k.ObjectKeyFromObject f (k.ObjectKeyFromObject obj) obj with
        ⟨_ | e, o1, calls⟩
      · have hfo := mutate_none _ _ _ _ _ _ hm
        have hc : calls = [] := by
          have := hf obj
          rw [hfo.1] at this
          exact this
        subst hc
        rw [CreateOrPatch_create k c obj o1 f err [] hget hnf hm] at ho
        have ho1 : o = o1 := by simpa using ho
        subst ho1
        exact ⟨err, rfl, hnf, hfo.1⟩
      · have hc : calls = [] := by
          have h1 := hf obj
          have h2 := mutate_calls k.ObjectKeyFromObject f (k.ObjectKeyFromObject obj) obj
          rw [hm] at h2
          rw [← h2] at h1
          exact h1
        have : (CreateOrPatch k c obj f).2.2 = calls := by
          unfold CreateOrPatch
          simp [hget, hnf, hm]
        rw [this, hc] at ho
        simp at ho
    · have hnf2 : IsNotFound (some err) = false := by simpa using hnf
      rw [CreateOrPatch_get_error k c obj f err hget hnf2] at ho
      simp at ho
  | ok start =>
    rcases hm : mutate k.ObjectKeyFromObject f (k.ObjectKeyFromObject obj) start with
      ⟨_ | e, o1, calls⟩
    · have hfo := mutate_none _ _ _ _ _ _ hm
      have hc : calls = [] := by
        have := hf start
        rw [hfo.1] at this
        exact this
      obtain ⟨tail, h1, h2, -, -⟩ := CreateOrPatch_patch_calls k c obj start o1 f calls hget hm
      rw [h1, hc] at ho
      rcases h2 _ (by simpa using ho) with h | h <;> simp at h
    · have hc : calls = [] := by
        have h1 := hf start
        have h2 := mutate_calls k.ObjectKeyFromObject f (k.ObjectKeyFromObject obj) start
        rw [hm] at h2
        rw [← h2] at h1
        exact h1
      have : (CreateOrPatch k c obj f).2.2 = calls := by
        unfold CreateOrPatch
        simp [hget, hm]
      rw [this, hc] at ho
      simp at ho

theorem CreateOrPatch_quiet (k : ObjectKind α σ) (c : Client α) (obj : α) (f : MutateFn α)
    (herr : (CreateOrPatch k c obj f).2.1 = none)
    (hw : writes (CreateOrPatch k c obj f).2.2 = []) :
    ∃ start o calls, c.Get (k.ObjectKeyFromObject obj) = Except.ok start ∧
      mutate k.ObjectKeyFromObject f (k.ObjectKeyFromObject obj) start = (none, o, calls) ∧
      k.withoutStatus start = k.withoutStatus o ∧ k.status start = k.status o := by
  cases hget : c.Get (k.ObjectKeyFromObject obj) with
  | error err =>
    by_cases hnf : IsNotFound (some err) = true
    · rcases hm : mutate k.ObjectKeyFromObject f (k.ObjectKeyFromObject obj) obj with
        ⟨_ | e, o1, calls⟩
      · rw [CreateOrPatch_create k c obj o1 f err calls hget hnf hm, writes_append] at hw
        simp [writes, Call.written] at hw
      · have : (CreateOrPatch k c obj f).2.1 = some e := by
          unfold CreateOrPatch
          simp [hget, hnf, hm]
        rw [this] at herr
        simp at herr
    · have hnf2 : IsNotFound (some err) = false := by simpa using hnf
      rw [CreateOrPatch_get_error k c obj f err hget hnf2] at herr
      simp at herr
  | ok start =>
    rcases hm : mutate k.ObjectKeyFromObject f (k.ObjectKeyFromObject obj) start with
      ⟨_ | e, o1, calls⟩
    · obtain ⟨tail, h1, h2, -, h4⟩ := CreateOrPatch_patch_calls k c obj start o1 f calls hget hm
      have htail : tail = [] := by
        rw [h1, writes_append] at hw
        have hwt : writes tail = [] := (List.append_eq_nil.mp hw).2
        cases tail with
        | nil => rfl
        | cons x rest =>
          rcases h2 x (by simp) with rfl | rfl <;> simp [writes, Call.written] at hwt
      exact ⟨start, o1, calls, rfl, hm, h4 htail⟩
    · have : (CreateOrPatch k c obj f).2.1 = some e := by
        unfold CreateOrPatch
        simp [hget, hm]
      rw [this] at herr
      simp at herr

end CreateOrPatchLemmas

/-! ## Lemmas on `SetControllerReference` -/

theorem upsertOwnerRef_nil (ref : OwnerReference) : upsertOwnerRef ref [] = [ref] := rfl

theorem upsertOwnerRef_cons (ref r : OwnerReference) (rs : List OwnerReference) :
    upsertOwnerRef ref (r :: rs) =
      if referSameObject r ref then ref :: rs else r :: upsertOwnerRef ref rs := by
  unfold upsertOwnerRef
  simp only [indexOwnerRef]
  by_cases h : referSameObject r ref = true
  · simp [h]
  · simp only [h]
    cases indexOwnerRef rs ref <;> simp

theorem mem_upsertOwnerRef (ref : OwnerReference) (owners : List OwnerReference) :
    ref ∈ upsertOwnerRef ref owners := by
  induction owners with
  | nil => simp [upsertOwnerRef_nil]
  | cons r rs ih =>
    rw [upsertOwnerRef_cons]
    split
    · simp
    · simp [ih]

theorem upsertOwnerRef_idem (ref : OwnerReference) (hself : referSameObject ref ref = true)
    (owners : List OwnerReference) :
    upsertOwnerRef ref (upsertOwnerRef ref owners) = upsertOwnerRef ref owners := by
  induction owners with
  | nil => simp [upsertOwnerRef_nil, upsertOwnerRef_cons, hself]
  | cons r rs ih =>
    rw [upsertOwnerRef_cons]
    by_cases h : referSameObject r ref = true
    · simp [h, upsertOwnerRef_cons, hself]
    · simp [h, upsertOwnerRef_cons, ih]

theorem GetControllerOf_upsertOwnerRef (ref : OwnerReference) (hctl : ref.Controller = some true)
    (owners : List OwnerReference)
    (hval : ∀ ex, GetControllerOf owners = some ex → referSameObject ex ref = true) :
    GetControllerOf (upsertOwnerRef ref owners) = some ref := by
  induction owners with
  | nil => simp [upsertOwnerRef_nil, GetControllerOf, hctl]
  | cons r rs ih =>
    rw [upsertOwnerRef_cons]
    by_cases h : referSameObject r ref = true
    · simp [h, GetControllerOf, hctl]
    · by_cases hr : r.Controller = some true
      · exact absurd (hval r (by simp [GetControllerOf, hr])) h
      · have hrs : ∀ ex, GetControllerOf rs = some ex → referSameObject ex ref = true := by
          intro ex hex
          apply hval
          simpa [GetControllerOf, hr] using hex
        have := ih hrs
        simp only [h]
        simpa [GetControllerOf, hr] using this

theorem SetControllerReference_ok (owner : Application) (m m1 : ObjectMeta) (scheme : Scheme)
    (h : SetControllerReference owner m scheme = Except.ok m1) :
    ∃ gvk, scheme = Except.ok gvk ∧
      m1 = { m with OwnerReferences := upsertOwnerRef (controllerRef owner gvk) m.OwnerReferences } ∧
      (∀ ex, GetControllerOf m.OwnerReferences = some ex →
        referSameObject ex (controllerRef owner gvk) = true) ∧
      validateOwner owner.Namespace m.Namespace = none := by
  unfold SetControllerReference at h
  cases hv : validateOwner owner.Namespace m.Namespace with
  | some e => simp [hv] at h
  | none =>
    cases scheme with
    | error e => simp [hv] at h
    | ok gvk =>
      refine ⟨gvk, rfl, ?_⟩
      simp only [hv] at h
      cases hc : GetControllerOf m.OwnerReferences with
      | none =>
        simp only [hc] at h
        simp at h
        simp [h]
      | some ex =>
        simp only [hc] at h
        by_cases hs : referSameObject ex (controllerRef owner gvk) = true
        · simp [hs] at h
          simp [h, hs]
        · simp [hs] at h

theorem SetControllerReference_idem (owner : Application) (m m1 : ObjectMeta) (scheme : Scheme)
    (hself : ∀ gvk, scheme = Except.ok gvk →
      referSameObject (controllerRef owner gvk) (controllerRef owner gvk) = true)
    (h : SetControllerReference owner m scheme = Except.ok m1) :
    SetControllerReference owner m1 scheme = Except.ok m1 := by
  obtain ⟨gvk, hs, hm, hval, hv⟩ := SetControllerReference_ok owner m m1 scheme h
  have hctl := GetControllerOf_upsertOwnerRef (controllerRef owner gvk) rfl m.OwnerReferences hval
  subst hs
  subst hm
  unfold SetControllerReference
  simp [hv, hctl, hself gvk rfl, upsertOwnerRef_idem]

theorem ParseGroupVersion_GroupVersionString (gv : GroupVersion)
    (hg : '/' ∉ gv.Group.toList) (hv : '/' ∉ gv.Version.toList) :
    ∃ p, ParseGroupVersion (GroupVersionString gv) = Except.ok p := by
  unfold ParseGroupVersion GroupVersionString
  by_cases hlen : gv.Group.length > 0
  · simp only [hlen, if_true]
    split
    · exact ⟨_, rfl⟩
    · have hc : (gv.Group ++ "/" ++ gv.Version).toList.count '/' = 1 := by
        have h1 : List.count '/' gv.Group.data = 0 := List.count_eq_zero_of_not_mem hg
        have h2 : List.count '/' gv.Version.data = 0 := List.count_eq_zero_of_not_mem hv
        simp [String.toList, h1, h2]
      rw [hc]
      exact ⟨_, rfl⟩
  · simp only [hlen, if_false]
    split
    · exact ⟨_, rfl⟩
    · have hc : gv.Version.toList.count '/' = 0 := List.count_eq_zero_of_not_mem hv
      rw [hc]
      exact ⟨_, rfl⟩

theorem referSameObject_self (a : OwnerReference)
    (h : ∃ p, ParseGroupVersion a.APIVersion = Except.ok p) : referSameObject a a = true := by
  obtain ⟨p, hp⟩ := h
  unfold referSameObject
  simp [hp]

/-! ## Lemmas on the two mutate closures -/

theorem pdb_mutateFn_error (r : ApplicationReconciler) (application : Application)
    (controllerName : String) (labels : GoMap) (pdb : PodDisruptionBudget) (e : Error)
    (h : SetControllerReference application pdb.ObjectMeta r.scheme = Except.error e) :
    r.mutateFn application controllerName labels pdb =
      (some e, pdb, [Call.SetControllerError controllerName e]) := by
  unfold ApplicationReconciler.mutateFn
  simp [h]

theorem pdb_mutateFn_ok (r : ApplicationReconciler) (application : Application)
    (controllerName : String) (labels : GoMap) (pdb : PodDisruptionBudget) (m : ObjectMeta)
    (h : SetControllerReference application pdb.ObjectMeta r.scheme = Except.ok m) :
    r.mutateFn application controllerName labels pdb =
      (none,
        { ObjectMeta := { m with
            Labels := r.SetLabelsFromApplication application m.Labels
            Annotations := r.SetCommonAnnotations m.Annotations }
          Spec :=
            { Selector := some { MatchLabels := labels, MatchExpressions := [] }
              MinAvailable := determineMinAvailable application.Spec.Replicas.Min
              MaxUnavailable := none }
          Status := pdb.Status },
        []) := by
  unfold ApplicationReconciler.mutateFn
  simp [h]

theorem pdb_mutateFn_none (r : ApplicationReconciler) (application : Application)
    (controllerName : String) (labels : GoMap) (pdb o : PodDisruptionBudget)
    (calls : List (Call PodDisruptionBudget))
    (h : r.mutateFn application controllerName labels pdb = (none, o, calls)) :
    ∃ m, SetControllerReference application pdb.ObjectMeta r.scheme = Except.ok m ∧
      calls = [] ∧
      o = { ObjectMeta := { m with
              Labels := r.SetLabelsFromApplication application m.Labels
              Annotations := r.SetCommonAnnotations m.Annotations }
            Spec :=
              { Selector := some { MatchLabels := labels, MatchExpressions := [] }
                MinAvailable := determineMinAvailable application.Spec.Replicas.Min
                MaxUnavailable := none }
            Status := pdb.Status } := by
  cases hs : SetControllerReference application pdb.ObjectMeta r.scheme with
  | error e =>
    rw [pdb_mutateFn_error r application controllerName labels pdb e hs] at h
    simp at h
  | ok m =>
    rw [pdb_mutateFn_ok r application controllerName labels pdb m hs] at h
    simp at h
    exact ⟨m, rfl, h.2, h.1.symm⟩

theorem pdb_mutateFn_writes (r : ApplicationReconciler) (application : Application)
    (controllerName : String) (labels : GoMap) (pdb : PodDisruptionBudget) :
    writes (r.mutateFn application controllerName labels pdb).2.2 = [] := by
  cases hs : SetControllerReference application pdb.ObjectMeta r.scheme with
  | error e =>
    rw [pdb_mutateFn_error r application controllerName labels pdb e hs]
    rfl
  | ok m =>
    rw [pdb_mutateFn_ok r application controllerName labels pdb m hs]
    rfl

theorem cm_mutateFn_error (r : ConfigMapReconciler) (application : Application)
    (shared child : ConfigMap) (e : Error)
    (h : SetControllerReference application child.ObjectMeta r.scheme = Except.error e) :
    r.mutateFn application shared child = (some e, child, []) := by
  unfold ConfigMapReconciler.mutateFn
  simp [h]

theorem cm_mutateFn_ok_none (r : ConfigMapReconciler) (application : Application)
    (shared child : ConfigMap) (m : ObjectMeta)
    (h : SetControllerReference application child.ObjectMeta r.scheme = Except.ok m)
    (hgcp : application.Spec.GCP = none) :
    r.mutateFn application shared child = (none, { child with ObjectMeta := m }, []) := by
  unfold ConfigMapReconciler.mutateFn
  simp [h, hgcp]

theorem cm_mutateFn_ok_some (r : ConfigMapReconciler) (application : Application)
    (shared child : ConfigMap) (m : ObjectMeta) (gcp : GCP)
    (h : SetControllerReference application child.ObjectMeta r.scheme = Except.ok m)
    (hgcp : application.Spec.GCP = some gcp) :
    ∃ doc, Marshal (ConfigMapReconciler.ConfStruct shared gcp) = Except.ok doc ∧
      r.mutateFn application shared child =
        (none, { child with ObjectMeta := m, Data := [("config", doc)] }, []) := by
  unfold ConfigMapReconciler.mutateFn
  simp [h, hgcp, Marshal]

theorem cm_mutateFn_writes (r : ConfigMapReconciler) (application : Application)
    (shared child : ConfigMap) : writes (r.mutateFn application shared child).2.2 = [] := by
  cases hs : SetControllerReference application child.ObjectMeta r.scheme with
  | error e =>
    rw [cm_mutateFn_error r application shared child e hs]
    rfl
  | ok m =>
    cases hgcp : application.Spec.GCP with
    | none =>
      rw [cm_mutateFn_ok_none r application shared child m hs hgcp]
      rfl
    | some gcp =>
      obtain ⟨doc, -, h⟩ := cm_mutateFn_ok_some r application shared child m gcp hs hgcp
      rw [h]
      rfl

theorem cm_mutateFn_none (r : ConfigMapReconciler) (application : Application)
    (shared child o : ConfigMap) (calls : List (Call ConfigMap))
    (h : r.mutateFn application shared child = (none, o, calls)) :
    ∃ m, SetControllerReference application child.ObjectMeta r.scheme = Except.ok m ∧
      calls = [] ∧ o.ObjectMeta = m ∧ o.Immutable = child.Immutable ∧
      o.BinaryData = child.BinaryData ∧
      (application.Spec.GCP = none → o.Data = child.Data) ∧
      (∀ gcp, application.Spec.GCP = some gcp →
        ∃ doc, Marshal (ConfigMapReconciler.ConfStruct shared gcp) = Except.ok doc ∧
          o.Data = [("config", doc)]) := by
  cases hs : SetControllerReference application child.ObjectMeta r.scheme with
  | error e =>
    rw [cm_mutateFn_error r application shared child e hs] at h
    simp at h
  | ok m =>
    cases hgcp : application.Spec.GCP with
    | none =>
      rw [cm_mutateFn_ok_none r application shared child m hs hgcp] at h
      simp at h
      obtain ⟨rfl, rfl⟩ := h
      exact ⟨m, rfl, rfl, rfl, rfl, rfl, fun _ => rfl, fun gcp hg => by simp at hg⟩
    | some gcp =>
      obtain ⟨doc, hdoc, h2⟩ := cm_mutateFn_ok_some r application shared child m gcp hs hgcp
      rw [h2] at h
      simp at h
      obtain ⟨rfl, rfl⟩ := h
      refine ⟨m, rfl, rfl, rfl, rfl, rfl, fun hg => by simp at hg, ?_⟩
      intro g hg
      have : g = gcp := by simpa using hg.symm
      subst this
      exact ⟨doc, hdoc, rfl⟩

/-! ## Lemmas on the two reconcile functions -/

theorem pdb_reconcile_writes (r : ApplicationReconciler) (application : Application) :
    writes (r.reconcilePodDisruptionBudget application).2 =
      writes (CreateOrPatch podDisruptionBudgetKind r.client (ApplicationReconciler.pdb application)
        (r.mutateFn application "PodDisruptionBudget" [("app", application.Name)])).2.2 := by
  unfold ApplicationReconciler.reconcilePodDisruptionBudget
  simp [writes_append, writes, Call.written]

theorem reconcile_found (r : ConfigMapReconciler) (FillDefaults : Application → Application)
    (application : Application) (shared : ConfigMap)
    (hget : r.client.Get { Namespace := "skiperator-system", Name := "gcp-identity-config" } =
      Except.ok shared) :
    r.Reconcile FillDefaults application =
      ((CreateOrPatch configMapKind r.client
          (ConfigMapReconciler.gcpAuthConfigMap (FillDefaults application))
          (r.mutateFn (FillDefaults application) shared)).2.1,
        (CreateOrPatch configMapKind r.client
          (ConfigMapReconciler.gcpAuthConfigMap (FillDefaults application))
          (r.mutateFn (FillDefaults application) shared)).2.2) := by
  unfold ConfigMapReconciler.Reconcile
  simp [hget, IsNotFound]

theorem reconcile_notFound (r : ConfigMapReconciler) (FillDefaults : Application → Application)
    (application : Application) (e : Error)
    (hget : r.client.Get { Namespace := "skiperator-system", Name := "gcp-identity-config" } =
      Except.error e)
    (hnf : IsNotFound (some e) = true) :
    r.Reconcile FillDefaults application =
      ((CreateOrPatch configMapKind r.client
          (ConfigMapReconciler.gcpAuthConfigMap (FillDefaults application))
          (r.mutateFn (FillDefaults application) ConfigMap.zero)).2.1,
        Call.Eventf
          { Namespace := (FillDefaults application).Namespace,
            Name := (FillDefaults application).Name }
          "Warning" "Missing"
          "Cannot find configmap named gcp-identity-config in namespace skiperator-system" ::
        (CreateOrPatch configMapKind r.client
          (ConfigMapReconciler.gcpAuthConfigMap (FillDefaults application))
          (r.mutateFn (FillDefaults application) ConfigMap.zero)).2.2) := by
  unfold ConfigMapReconciler.Reconcile
  simp [hget, hnf]

theorem reconcile_get_error (r : ConfigMapReconciler) (FillDefaults : Application → Application)
    (application : Application) (e : Error)
    (hget : r.client.Get { Namespace := "skiperator-system", Name := "gcp-identity-config" } =
      Except.error e)
    (hnf : IsNotFound (some e) = false) :
    r.Reconcile FillDefaults application = (some e, []) := by
  unfold ConfigMapReconciler.Reconcile
  simp [hget, hnf]

theorem cm_mutateFn_calls (r : ConfigMapReconciler) (application : Application)
    (shared child : ConfigMap) : (r.mutateFn application shared child).2.2 = [] := by
  cases hs : SetControllerReference application child.ObjectMeta r.scheme with
  | error e =>
    rw [cm_mutateFn_error r application shared child e hs]
  | ok m =>
    cases hgcp : application.Spec.GCP with
    | none =>
      rw [cm_mutateFn_ok_none r application shared child m hs hgcp]
    | some gcp =>
      obtain ⟨doc, -, h⟩ := cm_mutateFn_ok_some r application shared child m gcp hs hgcp
      rw [h]

theorem SetControllerReference_relabel (owner : Application) (m m1 : ObjectMeta)
    (scheme : Scheme) (labels annotations : GoMap)
    (h : SetControllerReference owner m scheme = Except.ok m1) :
    SetControllerReference owner { m with Labels := labels, Annotations := annotations } scheme =
      Except.ok { m1 with Labels := labels, Annotations := annotations } := by
  obtain ⟨gvk, hs, hm, hval, hv⟩ := SetControllerReference_ok owner m m1 scheme h
  subst hs
  subst hm
  unfold SetControllerReference
  simp only [hv]
  cases hc : GetControllerOf m.OwnerReferences with
  | none => simp
  | some ex => simp [hval ex hc]

theorem scheme_refers_self (owner : Application) (scheme : Scheme)
    (hscheme : ∀ gvk, scheme = Except.ok gvk →
      '/' ∉ gvk.Group.toList ∧ '/' ∉ gvk.Version.toList) :
    ∀ gvk, scheme = Except.ok gvk →
      referSameObject (controllerRef owner gvk) (controllerRef owner gvk) = true := by
  intro gvk hg
  apply referSameObject_self
  exact ParseGroupVersion_GroupVersionString { Group := gvk.Group, Version := gvk.Version }
    (hscheme gvk hg).1 (hscheme gvk hg).2

theorem cm_mutateFn_idem (r : ConfigMapReconciler) (application : Application)
    (shared child o : ConfigMap) (calls : List (Call ConfigMap))
    (hscheme : ∀ gvk, r.scheme = Except.ok gvk →
      '/' ∉ gvk.Group.toList ∧ '/' ∉ gvk.Version.toList)
    (h : r.mutateFn application shared child = (none, o, calls)) :
    r.mutateFn application shared o = (none, o, []) := by
  obtain ⟨m, hm, -, hmeta, -, -, hnone, hsome⟩ :=
    cm_mutateFn_none r application shared child o calls h
  have hidem := SetControllerReference_idem application child.ObjectMeta m r.scheme
    (scheme_refers_self application r.scheme hscheme) hm
  rw [← hmeta] at hidem
  cases hgcp : application.Spec.GCP with
  | none => rw [cm_mutateFn_ok_none r application shared o o.ObjectMeta hidem hgcp]
  | some gcp =>
    obtain ⟨doc, hdoc, hdata⟩ := hsome gcp hgcp
    obtain ⟨doc2, hdoc2, hres⟩ :=
      cm_mutateFn_ok_some r application shared o o.ObjectMeta gcp hidem hgcp
    have : doc2 = doc := by
      rw [hdoc] at hdoc2
      exact (Except.ok.inj hdoc2).symm
    subst this
    rw [hres, ← hdata]

theorem pdb_mutateFn_idem (r : ApplicationReconciler) (application : Application)
    (controllerName : String) (labels : GoMap) (pdb o : PodDisruptionBudget)
    (calls : List (Call PodDisruptionBudget))
    (hscheme : ∀ gvk, r.scheme = Except.ok gvk →
      '/' ∉ gvk.Group.toList ∧ '/' ∉ gvk.Version.toList)
    (hlabels : ∀ l, r.SetLabelsFromApplication application
      (r.SetLabelsFromApplication application l) = r.SetLabelsFromApplication application l)
    (hannotations : ∀ a, r.SetCommonAnnotations (r.SetCommonAnnotations a) =
      r.SetCommonAnnotations a)
    (h : r.mutateFn application controllerName labels pdb = (none, o, calls)) :
    r.mutateFn application controllerName labels o = (none, o, []) := by
  obtain ⟨m, hm, -, ho⟩ := pdb_mutateFn_none r application controllerName labels pdb o calls h
  have hidem := SetControllerReference_idem application pdb.ObjectMeta m r.scheme
    (scheme_refers_self application r.scheme hscheme) hm
  have hrel := SetControllerReference_relabel application m m r.scheme
    (r.SetLabelsFromApplication application m.Labels) (r.SetCommonAnnotations m.Annotations)
    hidem
  subst ho
  rw [pdb_mutateFn_ok r application controllerName labels _ _ hrel]
  simp [hlabels, hannotations]

theorem CreateOrPatch_fixpoint {α σ : Type} [DecidableEq α] [DecidableEq σ]
    (k : ObjectKind α σ) (c : Client α) (obj o : α) (f : MutateFn α)
    (hget : c.Get (k.ObjectKeyFromObject obj) = Except.ok o)
    (hkey : k.ObjectKeyFromObject obj = k.ObjectKeyFromObject o)
    (hf : f o = (none, o, [])) :
    CreateOrPatch k c obj f = (OperationResult.None, none, []) := by
  have hm := mutate_none_of k.ObjectKeyFromObject f (k.ObjectKeyFromObject obj) o o [] hf hkey
  unfold CreateOrPatch
  simp [hget, hm]

theorem pdb_mutate_produces (r : ApplicationReconciler) (application : Application)
    (controllerName : String) (labels : GoMap) (key : ObjectKey)
    (start pdb : PodDisruptionBudget) (calls : List (Call PodDisruptionBudget))
    (h : mutate podDisruptionBudgetKind.ObjectKeyFromObject
      (r.mutateFn application controllerName labels) key start = (none, pdb, calls)) :
    pdb.ObjectMeta.key = key ∧
    (∃ gvk, r.scheme = Except.ok gvk ∧
      controllerRef application gvk ∈ pdb.ObjectMeta.OwnerReferences ∧
      GetControllerOf pdb.ObjectMeta.OwnerReferences = some (controllerRef application gvk)) ∧
    pdb.Spec.Selector = some { MatchLabels := labels, MatchExpressions := [] } ∧
    pdb.Status = start.Status := by
  obtain ⟨hf, hk⟩ := mutate_none _ _ _ _ _ _ h
  obtain ⟨m, hm, -, ho⟩ := pdb_mutateFn_none r application _ _ start pdb calls hf
  obtain ⟨gvk, hs, hm2, hval, -⟩ := SetControllerReference_ok application _ m r.scheme hm
  refine ⟨hk.symm, ⟨gvk, hs, ?_, ?_⟩, ?_, ?_⟩
  · rw [ho, hm2]
    exact mem_upsertOwnerRef _ _
  · rw [ho, hm2]
    exact GetControllerOf_upsertOwnerRef _ rfl _ hval
  · rw [ho]
  · rw [ho]

theorem pdb_eq_of_parts (a b : PodDisruptionBudget)
    (h1 : podDisruptionBudgetKind.withoutStatus a = podDisruptionBudgetKind.withoutStatus b)
    (h2 : podDisruptionBudgetKind.status a = podDisruptionBudgetKind.status b) : a = b := by
  cases a
  cases b
  simp [podDisruptionBudgetKind] at h1 h2
  simp [h1, h2]

/-! ## Lemmas on the sample objects -/

theorem GoMap.assign_idem (m : GoMap) (k v : String) :
    GoMap.assign (GoMap.assign m k v) k v = GoMap.assign m k v := by
  induction m with
  | nil => simp [GoMap.assign]
  | cons p rest ih =>
    obtain ⟨k1, v1⟩ := p
    by_cases h : k1 = k
    · simp [GoMap.assign, h]
    · simp [GoMap.assign, h, ih]

theorem registered_no_slash :
    ∀ gvk, registered = Except.ok gvk → '/' ∉ gvk.Group.toList ∧ '/' ∉ gvk.Version.toList := by
  intro gvk h
  have hg : gvk = ⟨"skiperator.kartverket.no", "v1alpha1", "Application"⟩ :=
    (Except.ok.inj h).symm
  subst hg
  decide

/-! ## The claims -/

/-! ### C1: Disruption-budget threshold -/

/-- C1. `determineMinAvailable n` is never nil: it is the string `"50%"` when `n > 1` and the
integer `0`, the value of `intstr.FromInt(0)`, when `n <= 1`; so `1` gives integer `0` and `2`
gives `"50%"`.  Every disruption budget that `reconcilePodDisruptionBudget` writes carries
`determineMinAvailable application.Spec.Replicas.Min` as its `minAvailable`. -/
theorem determineMinAvailable_threshold (n : Nat) (r : ApplicationReconciler)
    (application : Application) :
    determineMinAvailable n = some (if n > 1 then FromString "50%" else FromInt 0) ∧
    FromString "50%" = { Type_ := IntstrType.String, IntVal := 0, StrVal := "50%" } ∧
    FromInt 0 = { Type_ := IntstrType.Int, IntVal := 0, StrVal := "" } ∧
    determineMinAvailable 1 = some (FromInt 0) ∧
    determineMinAvailable 2 = some (FromString "50%") ∧
    (∀ pdb ∈ writes (r.reconcilePodDisruptionBudget application).2,
      pdb.Spec.MinAvailable = determineMinAvailable application.Spec.Replicas.Min) := by
  refine ⟨?_, rfl, by decide, by decide, by decide, ?_⟩
  · unfold determineMinAvailable
    by_cases h : n > 1
    · simp [h]
    · simp only [h, if_false]
      decide
  · intro pdb hpdb
    rw [pdb_reconcile_writes] at hpdb
    obtain ⟨start, calls, -, hf, -⟩ := CreateOrPatch_written _ _ _ _
      (pdb_mutateFn_writes r application _ _) pdb hpdb
    obtain ⟨m, -, -, ho⟩ := pdb_mutateFn_none r application _ _ start pdb calls hf
    rw [ho]

/-- C1, on the Application `minimal` (minimum 2) over an empty store: the budget created has
`minAvailable = "50%"`. -/
theorem determineMinAvailable_threshold_witness :
    writes ((plainReconciler (emptyStore PodDisruptionBudget)).reconcilePodDisruptionBudget
      minimal).2 ≠ [] ∧
    (∀ pdb ∈ writes ((plainReconciler (emptyStore PodDisruptionBudget)).reconcilePodDisruptionBudget minimal).2,
      pdb.Spec.MinAvailable = some (FromString "50%")) := by
  refine ⟨by decide, ?_⟩
  intro pdb hpdb
  exact ((determineMinAvailable_threshold 2 (plainReconciler (emptyStore PodDisruptionBudget))
    minimal).2.2.2.2.2 pdb hpdb).trans (by decide)

/-! ### C2: Missing shared record -/

set_option maxRecDepth 20000 in
/-- C2 as stated fails: for `minimalGCP` over an empty store the lookup of the shared record
reports NotFound, and `Reconcile` still creates `minimal-gcp-auth` with a `config` document,
its audience built from two empty values. -/
theorem reconcile_notFound_writes_config :
    (emptyStore ConfigMap).Get { Namespace := "skiperator-system", Name := "gcp-identity-config" } =
      Except.error notFound ∧
    IsNotFound (some notFound) = true ∧
    minimalGCP.Spec.GCP ≠ none ∧
    ConfigMapReconciler.Reconcile { client := emptyStore ConfigMap, scheme := registered }
      (fun a => a) minimalGCP =
      (none,
        [Call.Eventf { Namespace := "ns1", Name := "minimal" } "Warning" "Missing"
          "Cannot find configmap named gcp-identity-config in namespace skiperator-system",
         Call.Create
          { ObjectMeta := { ObjectMeta.named "ns1" "minimal-gcp-auth" with
              OwnerReferences := [controllerRef minimalGCP
                { Group := "skiperator.kartverket.no", Version := "v1alpha1",
                  Kind := "Application" }] }
            Immutable := none
            Data := [("config",
              "\x7b\"type\":\"external_account\",\"audience\":\"identitynamespace::\"," ++
              "\"service_account_impersonation_url\":" ++
              "\"https://iamcredentials.googleapis.com/v1/projects/-/serviceAccounts/" ++
              "sa@project:generateAccessToken\"," ++
              "\"subject_token_type\":\"urn:ietf:params:oauth:token-type:jwt\"," ++
              "\"token_url\":\"https://sts.googleapis.com/v1/token\"," ++
              "\"credential_source\":\x7b\"file\":\"/var/run/secrets/tokens/gcp-ksa/token\"\x7d\x7d")]
            BinaryData := [] }]) := by
  refine ⟨rfl, by decide, by decide, ?_⟩
  decide

/-- C2, amended. When the lookup of the shared record reports NotFound, `Reconcile` records the
warning event `Missing` on the Application and then runs the apply step as it would with an
empty shared record: the error it returns is the error of that apply step, never the NotFound
of the lookup.  The artifact is degraded, not absent: with a GCP binding every
`<application>-gcp-auth` record written holds the one entry `config`, the document whose
audience is `identitynamespace::` (both shared values empty); without a binding a newly
created record has no data at all. -/
theorem reconcile_notFound_degraded (r : ConfigMapReconciler)
    (FillDefaults : Application → Application) (application : Application) (e : Error)
    (hget : r.client.Get { Namespace := "skiperator-system", Name := "gcp-identity-config" } =
      Except.error e)
    (hnf : IsNotFound (some e) = true) :
    r.Reconcile FillDefaults application =
      ((CreateOrPatch configMapKind r.client
          (ConfigMapReconciler.gcpAuthConfigMap (FillDefaults application))
          (r.mutateFn (FillDefaults application) ConfigMap.zero)).2.1,
        Call.Eventf
          { Namespace := (FillDefaults application).Namespace,
            Name := (FillDefaults application).Name }
          "Warning" "Missing"
          "Cannot find configmap named gcp-identity-config in namespace skiperator-system" ::
        (CreateOrPatch configMapKind r.client
          (ConfigMapReconciler.gcpAuthConfigMap (FillDefaults application))
          (r.mutateFn (FillDefaults application) ConfigMap.zero)).2.2) ∧
    (∀ gcp, (FillDefaults application).Spec.GCP = some gcp →
      ∀ o ∈ writes (r.Reconcile FillDefaults application).2,
        ∃ doc,
          Marshal
            { Type_ := "external_account"
              Audience := "identitynamespace::"
              ServiceAccountImpersonationUrl :=
                "https://iamcredentials.googleapis.com/v1/projects/-/serviceAccounts/" ++
                gcp.Auth.ServiceAccount ++ ":generateAccessToken"
              SubjectTokenType := "urn:ietf:params:oauth:token-type:jwt"
              TokenUrl := "https://sts.googleapis.com/v1/token"
              CredentialSource := { File := "/var/run/secrets/tokens/gcp-ksa/token" } } =
            Except.ok doc ∧
          o.Data = [("config", doc)]) ∧
    ((FillDefaults application).Spec.GCP = none →
      ∀ o, Call.Create o ∈ (r.Reconcile FillDefaults application).2 → o.Data = []) := by
  have hrec := reconcile_notFound r FillDefaults application e hget hnf
  refine ⟨hrec, ?_, ?_⟩
  · intro gcp hgcp o ho
    rw [hrec] at ho
    have ho2 : o ∈ writes (CreateOrPatch configMapKind r.client
        (ConfigMapReconciler.gcpAuthConfigMap (FillDefaults application))
        (r.mutateFn (FillDefaults application) ConfigMap.zero)).2.2 := by
      simpa [writes, Call.written] using ho
    obtain ⟨start, calls, -, hf, -⟩ := CreateOrPatch_written _ _ _ _
      (cm_mutateFn_writes r (FillDefaults application) ConfigMap.zero) o ho2
    obtain ⟨m, -, -, -, -, -, -, hd⟩ :=
      cm_mutateFn_none r (FillDefaults application) ConfigMap.zero start o calls hf
    obtain ⟨doc, hdoc, hdata⟩ := hd gcp hgcp
    exact ⟨doc, hdoc, hdata⟩
  · intro hgcp o ho
    rw [hrec] at ho
    have ho2 : Call.Create o ∈ (CreateOrPatch configMapKind r.client
        (ConfigMapReconciler.gcpAuthConfigMap (FillDefaults application))
        (r.mutateFn (FillDefaults application) ConfigMap.zero)).2.2 := by
      simpa using ho
    obtain ⟨err, -, -, hf⟩ := CreateOrPatch_created _ _ _ _
      (cm_mutateFn_calls r (FillDefaults application) ConfigMap.zero) o ho2
    obtain ⟨m, -, -, -, -, -, hd, -⟩ :=
      cm_mutateFn_none r (FillDefaults application) ConfigMap.zero _ o [] hf
    rw [hd hgcp]
    rfl

set_option maxRecDepth 20000 in
/-- C2 amended, on `minimalGCP` and on `minimal` over an empty store: both runs succeed; the
first creates a record whose only entry is `config`, the second a record without data. -/
theorem reconcile_notFound_degraded_witness :
    (ConfigMapReconciler.Reconcile { client := emptyStore ConfigMap, scheme := registered }
      (fun a => a) minimalGCP).1 = none ∧
    (writes (ConfigMapReconciler.Reconcile { client := emptyStore ConfigMap, scheme := registered }
      (fun a => a) minimalGCP).2).map (fun o => o.Data.map Prod.fst) = [["config"]] ∧
    (ConfigMapReconciler.Reconcile { client := emptyStore ConfigMap, scheme := registered }
      (fun a => a) minimal).1 = none ∧
    (writes (ConfigMapReconciler.Reconcile { client := emptyStore ConfigMap, scheme := registered }
      (fun a => a) minimal).2).map (fun o => o.Data) = [[]] := by
  have h := reconcile_notFound_degraded { client := emptyStore ConfigMap, scheme := registered }
    (fun a => a) minimalGCP notFound rfl (by decide)
  refine ⟨?_, by decide, by decide, by decide⟩
  rw [h.1]
  decide

/-! ### C3: Artifact only with a GCP binding -/

/-- C3. The artifact is emitted exactly when the Application declares a GCP binding.  Without a
binding the mutate step leaves the data of the record exactly as it was, whatever the record
and whether or not the step succeeds, so no record that `Reconcile` creates has a `config`
entry.  With a binding, the data left by a successful mutate step contains the `config` entry,
the serialized document, and so does every record that `Reconcile` writes. -/
theorem config_emitted_iff_binding (r : ConfigMapReconciler)
    (FillDefaults : Application → Application) (application : Application)
    (shared : ConfigMap) :
    (application.Spec.GCP = none →
      ∀ child, (r.mutateFn application shared child).2.1.Data = child.Data) ∧
    ((FillDefaults application).Spec.GCP = none →
      ∀ o, Call.Create o ∈ (r.Reconcile FillDefaults application).2 →
        o.Data = [] ∧ o.Data.lookup "config" = none) ∧
    (∀ gcp, application.Spec.GCP = some gcp →
      ∀ child o calls, r.mutateFn application shared child = (none, o, calls) →
        ∃ doc, Marshal (ConfigMapReconciler.ConfStruct shared gcp) = Except.ok doc ∧
          o.Data.lookup "config" = some doc) ∧
    ((FillDefaults application).Spec.GCP ≠ none →
      ∀ o ∈ writes (r.Reconcile FillDefaults application).2,
        (o.Data.lookup "config").isSome = true) := by
  refine ⟨?_, ?_, ?_, ?_⟩
  · intro hgcp child
    cases hs : SetControllerReference application child.ObjectMeta r.scheme with
    | error e => rw [cm_mutateFn_error r application shared child e hs]
    | ok m => rw [cm_mutateFn_ok_none r application shared child m hs hgcp]
  · intro hgcp o ho
    have key : ∀ found, Call.Create o ∈ (CreateOrPatch configMapKind r.client
        (ConfigMapReconciler.gcpAuthConfigMap (FillDefaults application))
        (r.mutateFn (FillDefaults application) found)).2.2 → o.Data = [] := by
      intro found hc
      obtain ⟨err, -, -, hf⟩ := CreateOrPatch_created _ _ _ _
        (cm_mutateFn_calls r (FillDefaults application) found) o hc
      obtain ⟨m, -, -, -, -, -, hd, -⟩ :=
        cm_mutateFn_none r (FillDefaults application) found _ o [] hf
      rw [hd hgcp]
      rfl
    have hdata : o.Data = [] := by
      cases hget : r.client.Get
          { Namespace := "skiperator-system", Name := "gcp-identity-config" } with
      | ok found =>
        rw [reconcile_found r FillDefaults application found hget] at ho
        exact key found ho
      | error err =>
        by_cases hnf : IsNotFound (some err) = true
        · rw [reconcile_notFound r FillDefaults application err hget hnf] at ho
          exact key ConfigMap.zero (by simpa using ho)
        · have hnf2 : IsNotFound (some err) = false := by simpa using hnf
          rw [reconcile_get_error r FillDefaults application err hget hnf2] at ho
          simp at ho
    exact ⟨hdata, by rw [hdata]; rfl⟩
  · intro gcp hgcp child o calls h
    obtain ⟨m, -, -, -, -, -, -, hd⟩ := cm_mutateFn_none r application shared child o calls h
    obtain ⟨doc, hdoc, hdata⟩ := hd gcp hgcp
    exact ⟨doc, hdoc, by rw [hdata]; simp [List.lookup]⟩
  · intro hgcp o ho
    obtain ⟨gcp, hg⟩ := Option.ne_none_iff_exists'.mp hgcp
    have key : ∀ found, o ∈ writes (CreateOrPatch configMapKind r.client
        (ConfigMapReconciler.gcpAuthConfigMap (FillDefaults application))
        (r.mutateFn (FillDefaults application) found)).2.2 →
        (o.Data.lookup "config").isSome = true := by
      intro found hc
      obtain ⟨start, calls, -, hf, -⟩ := CreateOrPatch_written _ _ _ _
        (cm_mutateFn_writes r (FillDefaults application) found) o hc
      obtain ⟨m, -, -, -, -, -, -, hd⟩ :=
        cm_mutateFn_none r (FillDefaults application) found start o calls hf
      obtain ⟨doc, -, hdata⟩ := hd gcp hg
      rw [hdata]
      simp [List.lookup]
    cases hget : r.client.Get
        { Namespace := "skiperator-system", Name := "gcp-identity-config" } with
    | ok found =>
      rw [reconcile_found r FillDefaults application found hget] at ho
      exact key found ho
    | error err =>
      by_cases hnf : IsNotFound (some err) = true
      · rw [reconcile_notFound r FillDefaults application err hget hnf] at ho
        exact key ConfigMap.zero (by simpa [writes, Call.written] using ho)
      · have hnf2 : IsNotFound (some err) = false := by simpa using hnf
        rw [reconcile_get_error r FillDefaults application err hget hnf2] at ho
        simp [writes] at ho

set_option maxRecDepth 20000 in
/-- C3, on the stored record with the operator's entry: for `minimal` (no binding) the mutate
step succeeds and the data is as it was; for `minimalGCP` it succeeds and the data has a
`config` entry.  Over an empty store `Reconcile` creates a record without data for `minimal`
and a record with a `config` entry for `minimalGCP`. -/
theorem config_emitted_iff_binding_witness :
    (ConfigMapReconciler.mutateFn { client := emptyStore ConfigMap, scheme := registered }
      minimal identityConfig annotatedRecord).1 = none ∧
    (ConfigMapReconciler.mutateFn { client := emptyStore ConfigMap, scheme := registered }
      minimal identityConfig annotatedRecord).2.1.Data = [("note", "kept by hand")] ∧
    (ConfigMapReconciler.mutateFn { client := emptyStore ConfigMap, scheme := registered }
      minimalGCP identityConfig annotatedRecord).1 = none ∧
    ((ConfigMapReconciler.mutateFn { client := emptyStore ConfigMap, scheme := registered }
      minimalGCP identityConfig annotatedRecord).2.1.Data.lookup "config").isSome = true ∧
    (writes (ConfigMapReconciler.Reconcile { client := emptyStore ConfigMap, scheme := registered }
      (fun a => a) minimal).2).map (fun o => o.Data) = [[]] ∧
    (writes (ConfigMapReconciler.Reconcile { client := emptyStore ConfigMap, scheme := registered }
      (fun a => a) minimalGCP).2).map (fun o => (o.Data.lookup "config").isSome) = [true] := by
  have h := config_emitted_iff_binding { client := emptyStore ConfigMap, scheme := registered }
    (fun a => a) minimal identityConfig
  have hg := config_emitted_iff_binding { client := emptyStore ConfigMap, scheme := registered }
    (fun a => a) minimalGCP identityConfig
  refine ⟨by decide, h.1 rfl annotatedRecord, by decide, ?_, by decide, by decide⟩
  obtain ⟨doc, -, hdoc⟩ := hg.2.2.1 _ rfl annotatedRecord
    (ConfigMapReconciler.mutateFn { client := emptyStore ConfigMap, scheme := registered }
      minimalGCP identityConfig annotatedRecord).2.1 [] rfl
  exact (congrArg Option.isSome hdoc).trans rfl

/-! ### C4: Shape of the artifact -/

/-- C4. For an Application with a GCP binding and any content of the shared record, every
record that `Reconcile` writes is named `<application name>-gcp-auth`, lies in the namespace of
the Application, and its data is exactly one entry, key `config`, whose value is the serialized
document with the fixed fields of the claim: the audience is built from the two values of the
shared record, the impersonation URL from the declared service account. -/
theorem gcp_auth_record (r : ConfigMapReconciler) (FillDefaults : Application → Application)
    (application : Application) (gcp : GCP) (shared : ConfigMap)
    (hgcp : (FillDefaults application).Spec.GCP = some gcp)
    (hget : r.client.Get { Namespace := "skiperator-system", Name := "gcp-identity-config" } =
      Except.ok shared) :
    ∀ o ∈ writes (r.Reconcile FillDefaults application).2,
      o.ObjectMeta.Name = (FillDefaults application).Name ++ "-gcp-auth" ∧
      o.ObjectMeta.Namespace = (FillDefaults application).Namespace ∧
      ∃ doc,
        Marshal
          { Type_ := "external_account"
            Audience := "identitynamespace:" ++ shared.Data.index "workloadIdentityPool" ++ ":" ++
              shared.Data.index "identityProvider"
            ServiceAccountImpersonationUrl :=
              "https://iamcredentials.googleapis.com/v1/projects/-/serviceAccounts/" ++
              gcp.Auth.ServiceAccount ++ ":generateAccessToken"
            SubjectTokenType := "urn:ietf:params:oauth:token-type:jwt"
            TokenUrl := "https://sts.googleapis.com/v1/token"
            CredentialSource := { File := "/var/run/secrets/tokens/gcp-ksa/token" } } =
          Except.ok doc ∧
        o.Data = [("config", doc)] := by
  intro o ho
  rw [reconcile_found r FillDefaults application shared hget] at ho
  obtain ⟨start, calls, -, hf, hk⟩ := CreateOrPatch_written _ _ _ _
    (cm_mutateFn_writes r (FillDefaults application) shared) o ho
  obtain ⟨m, -, -, -, -, -, -, hd⟩ :=
    cm_mutateFn_none r (FillDefaults application) shared start o calls hf
  obtain ⟨doc, hdoc, hdata⟩ := hd gcp hgcp
  have hkey : (ConfigMapReconciler.gcpAuthConfigMap (FillDefaults application)).ObjectMeta.key =
    o.ObjectMeta.key := hk
  refine ⟨?_, ?_, doc, hdoc, hdata⟩
  · exact (congrArg ObjectKey.Name hkey).symm
  · exact (congrArg ObjectKey.Namespace hkey).symm

set_option maxRecDepth 20000 in
/-- C4, on `minimalGCP` with the shared record in the store and no child yet: one record is
written, `ns1/minimal-gcp-auth`, with the document for pool `pool` and provider `provider`. -/
theorem gcp_auth_record_witness :
    writes (ConfigMapReconciler.Reconcile
      { client := storeOf [({ Namespace := "skiperator-system", Name := "gcp-identity-config" },
          identityConfig)],
        scheme := registered } (fun a => a) minimalGCP).2 =
      [{ ObjectMeta := { ObjectMeta.named "ns1" "minimal-gcp-auth" with
          OwnerReferences := [controllerRef minimalGCP
            { Group := "skiperator.kartverket.no", Version := "v1alpha1",
              Kind := "Application" }] }
         Immutable := none
         Data := [("config",
           "\x7b\"type\":\"external_account\"," ++
           "\"audience\":\"identitynamespace:pool:provider\"," ++
           "\"service_account_impersonation_url\":" ++
           "\"https://iamcredentials.googleapis.com/v1/projects/-/serviceAccounts/" ++
           "sa@project:generateAccessToken\"," ++
           "\"subject_token_type\":\"urn:ietf:params:oauth:token-type:jwt\"," ++
           "\"token_url\":\"https://sts.googleapis.com/v1/token\"," ++
           "\"credential_source\":\x7b\"file\":\"/var/run/secrets/tokens/gcp-ksa/token\"\x7d\x7d")]
         BinaryData := [] }] ∧
    (∀ o ∈ writes (ConfigMapReconciler.Reconcile
      { client := storeOf [({ Namespace := "skiperator-system", Name := "gcp-identity-config" },
          identityConfig)],
        scheme := registered } (fun a => a) minimalGCP).2,
      o.ObjectMeta.Name = "minimal-gcp-auth" ∧ o.ObjectMeta.Namespace = "ns1") := by
  refine ⟨by decide, ?_⟩
  intro o ho
  have h := gcp_auth_record
    { client := storeOf [({ Namespace := "skiperator-system", Name := "gcp-identity-config" },
        identityConfig)],
      scheme := registered } (fun a => a) minimalGCP _ identityConfig rfl rfl o ho
  exact ⟨h.1, h.2.1⟩

/-! ### C5: Owner reference failure -/

/-- C5. When assigning the owner reference fails with error `e`: the mutate step of either
reconciler returns `e` and leaves the child exactly as it found it (no labels, annotations,
spec or data are set); `reconcilePodDisruptionBudget` returns `e`, writes nothing, and reports
`e` to the status tracker under `"PodDisruptionBudget"`, as the error and as the finished
outcome; `ConfigMapReconciler.Reconcile` returns `e` and writes nothing.  For the two reconcile
functions the child is the one `CreateOrPatch` starts from: the stored object, or the new one
when the store has none; for the config map the lookup of the shared record has not failed
with an error other than NotFound. -/
theorem owner_reference_failure (rc : ConfigMapReconciler) (ra : ApplicationReconciler)
    (FillDefaults : Application → Application) (application : Application) :
    (∀ (shared child : ConfigMap) (e : Error),
      SetControllerReference application child.ObjectMeta rc.scheme = Except.error e →
      rc.mutateFn application shared child = (some e, child, [])) ∧
    (∀ (pdb : PodDisruptionBudget) (e : Error),
      SetControllerReference application pdb.ObjectMeta ra.scheme = Except.error e →
      ra.mutateFn application "PodDisruptionBudget" [("app", application.Name)] pdb =
        (some e, pdb, [Call.SetControllerError "PodDisruptionBudget" e])) ∧
    (∀ (start : PodDisruptionBudget) (e : Error),
      (ra.client.Get (ApplicationReconciler.pdb application).ObjectMeta.key = Except.ok start ∨
        (start = ApplicationReconciler.pdb application ∧
          ∃ err, ra.client.Get (ApplicationReconciler.pdb application).ObjectMeta.key =
            Except.error err ∧ IsNotFound (some err) = true)) →
      SetControllerReference application start.ObjectMeta ra.scheme = Except.error e →
      ra.reconcilePodDisruptionBudget application =
        (some e,
          [Call.SetControllerProgressing "PodDisruptionBudget",
           Call.SetControllerError "PodDisruptionBudget" e,
           Call.SetControllerFinishedOutcome "PodDisruptionBudget" (some e)])) ∧
    (∀ (start : ConfigMap) (e : Error),
      (∀ err, rc.client.Get { Namespace := "skiperator-system", Name := "gcp-identity-config" } =
        Except.error err → IsNotFound (some err) = true) →
      (rc.client.Get
          (ConfigMapReconciler.gcpAuthConfigMap (FillDefaults application)).ObjectMeta.key =
          Except.ok start ∨
        (start = ConfigMapReconciler.gcpAuthConfigMap (FillDefaults application) ∧
          ∃ err, rc.client.Get
            (ConfigMapReconciler.gcpAuthConfigMap (FillDefaults application)).ObjectMeta.key =
            Except.error err ∧ IsNotFound (some err) = true)) →
      SetControllerReference (FillDefaults application) start.ObjectMeta rc.scheme =
        Except.error e →
      (rc.Reconcile FillDefaults application).1 = some e ∧
      writes (rc.Reconcile FillDefaults application).2 = []) := by
  refine ⟨?_, ?_, ?_, ?_⟩
  · intro shared child e h
    exact cm_mutateFn_error rc application shared child e h
  · intro pdb e h
    exact pdb_mutateFn_error ra application _ _ pdb e h
  · intro start e hstart h
    have hf := pdb_mutateFn_error ra application "PodDisruptionBudget"
      [("app", application.Name)] start e h
    have hc := CreateOrPatch_mutate_error podDisruptionBudgetKind ra.client
      (ApplicationReconciler.pdb application) start start _ e _ hstart hf
    unfold ApplicationReconciler.reconcilePodDisruptionBudget
    simp [hc]
  · intro start e hshared hstart h
    cases hget : rc.client.Get
        { Namespace := "skiperator-system", Name := "gcp-identity-config" } with
    | ok shared =>
      have hf := cm_mutateFn_error rc (FillDefaults application) shared start e h
      have hc := CreateOrPatch_mutate_error configMapKind rc.client
        (ConfigMapReconciler.gcpAuthConfigMap (FillDefaults application)) start start _ e _
        hstart hf
      rw [reconcile_found rc FillDefaults application shared hget, hc]
      exact ⟨rfl, rfl⟩
    | error err =>
      have hf := cm_mutateFn_error rc (FillDefaults application) ConfigMap.zero start e h
      have hc := CreateOrPatch_mutate_error configMapKind rc.client
        (ConfigMapReconciler.gcpAuthConfigMap (FillDefaults application)) start start _ e _
        hstart hf
      rw [reconcile_notFound rc FillDefaults application err hget (hshared err hget), hc]
      exact ⟨rfl, rfl⟩

/-- C5, on `minimalGCP` over stores whose child object another controller owns:
both reconcile functions return the already-owned error and write nothing, and the stored
children are left as they were by the mutate steps. -/
theorem owner_reference_failure_witness :
    (plainReconciler (storeOf [({ Namespace := "ns1", Name := "minimal" },
        foreignBudget)])).reconcilePodDisruptionBudget minimalGCP =
      (some (Errorf "Object ns1/minimal is already owned by another Deployment controller other"),
        [Call.SetControllerProgressing "PodDisruptionBudget",
         Call.SetControllerError "PodDisruptionBudget"
           (Errorf "Object ns1/minimal is already owned by another Deployment controller other"),
         Call.SetControllerFinishedOutcome "PodDisruptionBudget"
           (some (Errorf
             "Object ns1/minimal is already owned by another Deployment controller other"))]) ∧
    (ConfigMapReconciler.Reconcile
        { client := storeOf [({ Namespace := "ns1", Name := "minimal-gcp-auth" }, foreignRecord)],
          scheme := registered }
        (fun a => a) minimalGCP).1 =
      some (Errorf
        "Object ns1/minimal-gcp-auth is already owned by another Deployment controller other") ∧
    writes (ConfigMapReconciler.Reconcile
        { client := storeOf [({ Namespace := "ns1", Name := "minimal-gcp-auth" }, foreignRecord)],
          scheme := registered }
        (fun a => a) minimalGCP).2 = [] ∧
    (ConfigMapReconciler.mutateFn
        { client := storeOf [({ Namespace := "ns1", Name := "minimal-gcp-auth" }, foreignRecord)],
          scheme := registered }
        minimalGCP identityConfig foreignRecord).2.1 = foreignRecord := by
  have h := owner_reference_failure
    { client := storeOf [({ Namespace := "ns1", Name := "minimal-gcp-auth" }, foreignRecord)],
      scheme := registered }
    (plainReconciler (storeOf [({ Namespace := "ns1", Name := "minimal" }, foreignBudget)]))
    (fun a => a) minimalGCP
  have h3 := h.2.2.1 foreignBudget
    (Errorf "Object ns1/minimal is already owned by another Deployment controller other")
    (Or.inl rfl) rfl
  have h4 := h.2.2.2 foreignRecord
    (Errorf "Object ns1/minimal-gcp-auth is already owned by another Deployment controller other")
    (by intro err herr; cases herr; decide) (Or.inl rfl) rfl
  have h1 := h.1 identityConfig foreignRecord
    (Errorf "Object ns1/minimal-gcp-auth is already owned by another Deployment controller other")
    rfl
  exact ⟨h3, h4.1, h4.2, by rw [h1]⟩

/-! ### C6: Idempotence -/

/-- C6. For a fixed Application and a fixed content of the shared record, with a scheme whose
registered group and version contain no slash and with label and annotation helpers that are
themselves idempotent: the mutate step of each reconciler, run on the child a successful run
has just produced, succeeds and yields that same child; and when the store returns that child,
a second run of either reconcile function makes no write at all and returns no error. -/
theorem mutate_idempotent (rc : ConfigMapReconciler) (ra : ApplicationReconciler)
    (application : Application) (shared : ConfigMap)
    (hrc : ∀ gvk, rc.scheme = Except.ok gvk →
      '/' ∉ gvk.Group.toList ∧ '/' ∉ gvk.Version.toList)
    (hra : ∀ gvk, ra.scheme = Except.ok gvk →
      '/' ∉ gvk.Group.toList ∧ '/' ∉ gvk.Version.toList)
    (hlabels : ∀ l, ra.SetLabelsFromApplication application
      (ra.SetLabelsFromApplication application l) = ra.SetLabelsFromApplication application l)
    (hannotations : ∀ a, ra.SetCommonAnnotations (ra.SetCommonAnnotations a) =
      ra.SetCommonAnnotations a) :
    (∀ child o calls, rc.mutateFn application shared child = (none, o, calls) →
      rc.mutateFn application shared o = (none, o, [])) ∧
    (∀ pdb o calls,
      ra.mutateFn application "PodDisruptionBudget" [("app", application.Name)] pdb =
        (none, o, calls) →
      ra.mutateFn application "PodDisruptionBudget" [("app", application.Name)] o =
        (none, o, [])) ∧
    (∀ start o calls,
      mutate podDisruptionBudgetKind.ObjectKeyFromObject
        (ra.mutateFn application "PodDisruptionBudget" [("app", application.Name)])
        (ApplicationReconciler.pdb application).ObjectMeta.key start = (none, o, calls) →
      ra.client.Get (ApplicationReconciler.pdb application).ObjectMeta.key = Except.ok o →
      ra.reconcilePodDisruptionBudget application =
        (none,
          [Call.SetControllerProgressing "PodDisruptionBudget",
           Call.SetControllerFinishedOutcome "PodDisruptionBudget" none])) ∧
    (∀ (FillDefaults : Application → Application) (declared : Application) start o calls,
      FillDefaults declared = application →
      mutate configMapKind.ObjectKeyFromObject (rc.mutateFn application shared)
        (ConfigMapReconciler.gcpAuthConfigMap application).ObjectMeta.key start =
        (none, o, calls) →
      rc.client.Get { Namespace := "skiperator-system", Name := "gcp-identity-config" } =
        Except.ok shared →
      rc.client.Get (ConfigMapReconciler.gcpAuthConfigMap application).ObjectMeta.key =
        Except.ok o →
      rc.Reconcile FillDefaults declared = (none, [])) := by
  refine ⟨?_, ?_, ?_, ?_⟩
  · intro child o calls h
    exact cm_mutateFn_idem rc application shared child o calls hrc h
  · intro pdb o calls h
    exact pdb_mutateFn_idem ra application _ _ pdb o calls hra hlabels hannotations h
  · intro start o calls hm hget
    obtain ⟨hf, hk⟩ := mutate_none _ _ _ _ _ _ hm
    have hfix := pdb_mutateFn_idem ra application _ _ start o calls hra hlabels hannotations hf
    have hc := CreateOrPatch_fixpoint podDisruptionBudgetKind ra.client
      (ApplicationReconciler.pdb application) o _ hget hk hfix
    unfold ApplicationReconciler.reconcilePodDisruptionBudget
    simp [hc]
  · intro FillDefaults declared start o calls hfill hm hshared hget
    subst hfill
    obtain ⟨hf, hk⟩ := mutate_none _ _ _ _ _ _ hm
    have hfix := cm_mutateFn_idem rc _ shared start o calls hrc hf
    have hc := CreateOrPatch_fixpoint configMapKind rc.client
      (ConfigMapReconciler.gcpAuthConfigMap (FillDefaults declared)) o _ hget hk hfix
    rw [reconcile_found rc FillDefaults declared shared hshared, hc]

set_option maxRecDepth 20000 in
/-- C6, on `minimalGCP`: the children a first run produces carry the label, the annotation and
the document; with these in the store a second run of either reconcile function writes
nothing. -/
theorem mutate_idempotent_witness :
    createdBudget.ObjectMeta.Labels = [("app", "minimal")] ∧
    createdBudget.ObjectMeta.Annotations =
      [("argocd.argoproj.io/sync-options", "Prune=false")] ∧
    (createdRecord.Data.lookup "config").isSome = true ∧
    (labellingReconciler (storeOf [({ Namespace := "ns1", Name := "minimal" },
        createdBudget)])).reconcilePodDisruptionBudget minimalGCP =
      (none,
        [Call.SetControllerProgressing "PodDisruptionBudget",
         Call.SetControllerFinishedOutcome "PodDisruptionBudget" none]) ∧
    ConfigMapReconciler.Reconcile
      { client := storeOf
          [({ Namespace := "skiperator-system", Name := "gcp-identity-config" }, identityConfig),
           ({ Namespace := "ns1", Name := "minimal-gcp-auth" }, createdRecord)],
        scheme := registered }
      (fun a => a) minimalGCP = (none, []) := by
  have h := mutate_idempotent
    { client := storeOf
        [({ Namespace := "skiperator-system", Name := "gcp-identity-config" }, identityConfig),
         ({ Namespace := "ns1", Name := "minimal-gcp-auth" }, createdRecord)],
      scheme := registered }
    (labellingReconciler (storeOf [({ Namespace := "ns1", Name := "minimal" }, createdBudget)]))
    minimalGCP identityConfig registered_no_slash registered_no_slash
    (fun l => GoMap.assign_idem l _ _) (fun a => GoMap.assign_idem a _ _)
  refine ⟨by decide, by decide, by decide, ?_, ?_⟩
  · exact h.2.2.1 (ApplicationReconciler.pdb minimalGCP) createdBudget [] rfl rfl
  · exact h.2.2.2 (fun a => a) minimalGCP (ConfigMapReconciler.gcpAuthConfigMap minimalGCP)
      createdRecord [] rfl rfl rfl rfl

/-! ### C7: Frame of the mutate step -/

set_option maxRecDepth 20000 in
/-- C7 as stated fails: the stored record `minimal-gcp-auth` holds the entry `note` that an
operator added; for `minimalGCP` the mutate step succeeds and the entry is gone afterwards. -/
theorem mutate_drops_other_entries :
    annotatedRecord.Data.lookup "note" = some "kept by hand" ∧
    (ConfigMapReconciler.mutateFn { client := emptyStore ConfigMap, scheme := registered }
      minimalGCP identityConfig annotatedRecord).1 = none ∧
    (ConfigMapReconciler.mutateFn { client := emptyStore ConfigMap, scheme := registered }
      minimalGCP identityConfig annotatedRecord).2.1.Data.lookup "note" = none ∧
    (ConfigMapReconciler.mutateFn { client := emptyStore ConfigMap, scheme := registered }
      minimalGCP identityConfig annotatedRecord).2.1.Data.map Prod.fst = ["config"] := by
  decide

/-- C7, amended. The mutate step changes only the fields this system owns.  On a disruption
budget the status and all metadata other than owner references, labels and annotations are
as they were.  On a `<application>-gcp-auth` record `immutable`, the binary data and all
metadata other than owner references are as they were; the data is owned as a whole: without
a GCP binding it is left exactly as it was, with a GCP binding a successful mutate step
replaces it by the single entry `config`, whatever other entries it held. -/
theorem mutate_frame (rc : ConfigMapReconciler) (ra : ApplicationReconciler)
    (application : Application) (shared : ConfigMap) :
    (∀ pdb : PodDisruptionBudget,
      (ra.mutateFn application "PodDisruptionBudget" [("app", application.Name)]
        pdb).2.1.Status = pdb.Status ∧
      { (ra.mutateFn application "PodDisruptionBudget" [("app", application.Name)]
          pdb).2.1.ObjectMeta with
        OwnerReferences := pdb.ObjectMeta.OwnerReferences
        Labels := pdb.ObjectMeta.Labels
        Annotations := pdb.ObjectMeta.Annotations } = pdb.ObjectMeta) ∧
    (∀ child : ConfigMap,
      (rc.mutateFn application shared child).2.1.Immutable = child.Immutable ∧
      (rc.mutateFn application shared child).2.1.BinaryData = child.BinaryData ∧
      { (rc.mutateFn application shared child).2.1.ObjectMeta with
        OwnerReferences := child.ObjectMeta.OwnerReferences } = child.ObjectMeta ∧
      (application.Spec.GCP = none →
        (rc.mutateFn application shared child).2.1.Data = child.Data) ∧
      (∀ gcp, application.Spec.GCP = some gcp →
        (rc.mutateFn application shared child).1 = none →
        ∃ doc, Marshal (ConfigMapReconciler.ConfStruct shared gcp) = Except.ok doc ∧
          (rc.mutateFn application shared child).2.1.Data = [("config", doc)])) := by
  refine ⟨?_, ?_⟩
  · intro pdb
    cases hs : SetControllerReference application pdb.ObjectMeta ra.scheme with
    | error e =>
      rw [pdb_mutateFn_error ra application _ _ pdb e hs]
      exact ⟨rfl, rfl⟩
    | ok m =>
      obtain ⟨gvk, -, hm, -, -⟩ := SetControllerReference_ok application _ m ra.scheme hs
      rw [pdb_mutateFn_ok ra application _ _ pdb m hs]
      subst hm
      exact ⟨rfl, rfl⟩
  · intro child
    cases hs : SetControllerReference application child.ObjectMeta rc.scheme with
    | error e =>
      rw [cm_mutateFn_error rc application shared child e hs]
      exact ⟨rfl, rfl, rfl, fun _ => rfl, fun gcp _ h => by simp at h⟩
    | ok m =>
      obtain ⟨gvk, -, hm, -, -⟩ := SetControllerReference_ok application _ m rc.scheme hs
      cases hgcp : application.Spec.GCP with
      | none =>
        rw [cm_mutateFn_ok_none rc application shared child m hs hgcp]
        subst hm
        exact ⟨rfl, rfl, rfl, fun _ => rfl, fun gcp h _ => by simp at h⟩
      | some gcp =>
        obtain ⟨doc, hdoc, hres⟩ := cm_mutateFn_ok_some rc application shared child m gcp hs hgcp
        rw [hres]
        subst hm
        refine ⟨rfl, rfl, rfl, fun h => by simp at h, ?_⟩
        intro g hg _
        have : g = gcp := by simpa using hg.symm
        subst this
        exact ⟨doc, hdoc, rfl⟩

set_option maxRecDepth 20000 in
/-- C7 amended, on the stored record with the operator's entry and on the stored budget of a
foreign owner with its server-set fields: without a binding the entry is still there, with a
binding the data is the `config` entry alone, and UID and resource version stay. -/
theorem mutate_frame_witness :
    (ConfigMapReconciler.mutateFn { client := emptyStore ConfigMap, scheme := registered }
      minimal identityConfig annotatedRecord).2.1.Data = [("note", "kept by hand")] ∧
    ((ConfigMapReconciler.mutateFn { client := emptyStore ConfigMap, scheme := registered }
      minimalGCP identityConfig annotatedRecord).2.1.Data.map Prod.fst = ["config"]) ∧
    (ConfigMapReconciler.mutateFn { client := emptyStore ConfigMap, scheme := registered }
      minimalGCP identityConfig annotatedRecord).2.1.ObjectMeta.ResourceVersion = "7" ∧
    ((labellingReconciler (emptyStore PodDisruptionBudget)).mutateFn minimal
      "PodDisruptionBudget" [("app", "minimal")]
      { foreignBudget with ObjectMeta := { foreignBudget.ObjectMeta with
          OwnerReferences := [] } }).2.1.ObjectMeta.UID = "uid-pdb" := by
  have h := mutate_frame { client := emptyStore ConfigMap, scheme := registered }
    (labellingReconciler (emptyStore PodDisruptionBudget)) minimal identityConfig
  have hg := mutate_frame { client := emptyStore ConfigMap, scheme := registered }
    (labellingReconciler (emptyStore PodDisruptionBudget)) minimalGCP identityConfig
  refine ⟨(h.2 annotatedRecord).2.2.2.1 rfl, ?_, ?_, ?_⟩
  · obtain ⟨doc, -, hdata⟩ := (hg.2 annotatedRecord).2.2.2.2 _ rfl rfl
    rw [hdata]
    rfl
  · exact congrArg ObjectMeta.ResourceVersion (hg.2 annotatedRecord).2.2.1
  · exact congrArg ObjectMeta.UID (h.1 { foreignBudget with ObjectMeta :=
      { foreignBudget.ObjectMeta with OwnerReferences := [] } }).2

/-! ### C8: Identity, owner and selector of the budget -/

/-- C8. Every disruption budget that a run of `reconcilePodDisruptionBudget` sends to the store
(the budget a successful mutate step has produced) has the Application's namespace and name,
carries the controller reference to the Application, which is also its controlling owner, and
selects pods by match labels that are exactly `app: <application name>`.  When a run returns
no error and sends nothing, the mutate step has succeeded and produced the stored budget
unchanged, and that stored budget has the same four properties. -/
theorem pdb_identity_owner_selector (r : ApplicationReconciler) (application : Application) :
    (∀ pdb ∈ writes (r.reconcilePodDisruptionBudget application).2,
      pdb.ObjectMeta.Namespace = application.Namespace ∧
      pdb.ObjectMeta.Name = application.Name ∧
      (∃ gvk, r.scheme = Except.ok gvk ∧
        controllerRef application gvk ∈ pdb.ObjectMeta.OwnerReferences ∧
        GetControllerOf pdb.ObjectMeta.OwnerReferences = some (controllerRef application gvk) ∧
        (controllerRef application gvk).Name = application.Name ∧
        (controllerRef application gvk).UID = application.UID ∧
        (controllerRef application gvk).Kind = gvk.Kind) ∧
      pdb.Spec.Selector =
        some { MatchLabels := [("app", application.Name)], MatchExpressions := [] }) ∧
    ((r.reconcilePodDisruptionBudget application).1 = none →
      writes (r.reconcilePodDisruptionBudget application).2 = [] →
      ∃ pdb,
        r.client.Get { Namespace := application.Namespace, Name := application.Name } =
          Except.ok pdb ∧
        pdb.ObjectMeta.Namespace = application.Namespace ∧
        pdb.ObjectMeta.Name = application.Name ∧
        (∃ gvk, r.scheme = Except.ok gvk ∧
          controllerRef application gvk ∈ pdb.ObjectMeta.OwnerReferences ∧
          GetControllerOf pdb.ObjectMeta.OwnerReferences =
            some (controllerRef application gvk) ∧
          (controllerRef application gvk).Name = application.Name ∧
          (controllerRef application gvk).UID = application.UID ∧
          (controllerRef application gvk).Kind = gvk.Kind) ∧
        pdb.Spec.Selector =
          some { MatchLabels := [("app", application.Name)], MatchExpressions := [] }) := by
  refine ⟨?_, ?_⟩
  · intro pdb hpdb
    rw [pdb_reconcile_writes] at hpdb
    obtain ⟨start, calls, -, hf, hk⟩ := CreateOrPatch_written _ _ _ _
      (pdb_mutateFn_writes r application _ _) pdb hpdb
    obtain ⟨hkey, ⟨gvk, hs, hmem, hctl⟩, hsel, -⟩ := pdb_mutate_produces r application _ _ _
      start pdb calls (mutate_none_of _ _ _ _ _ _ hf hk)
    have hkey2 : pdb.ObjectMeta.key = (ApplicationReconciler.pdb application).ObjectMeta.key :=
      hkey
    exact ⟨congrArg ObjectKey.Namespace hkey2, congrArg ObjectKey.Name hkey2,
      ⟨gvk, hs, hmem, hctl, rfl, rfl, rfl⟩, hsel⟩
  · intro herr hw
    rw [pdb_reconcile_writes] at hw
    have herr2 : (CreateOrPatch podDisruptionBudgetKind r.client
        (ApplicationReconciler.pdb application)
        (r.mutateFn application "PodDisruptionBudget" [("app", application.Name)])).2.1 =
        none := herr
    obtain ⟨start, o, calls, hget, hm, h1, h2⟩ := CreateOrPatch_quiet _ _ _ _ herr2 hw
    have hso : start = o := pdb_eq_of_parts start o h1 h2
    subst hso
    obtain ⟨hkey, ⟨gvk, hs, hmem, hctl⟩, hsel, -⟩ := pdb_mutate_produces r application _ _ _
      start start calls hm
    have hkey2 : start.ObjectMeta.key =
      (ApplicationReconciler.pdb application).ObjectMeta.key := hkey
    exact ⟨start, hget, congrArg ObjectKey.Namespace hkey2, congrArg ObjectKey.Name hkey2,
      ⟨gvk, hs, hmem, hctl, rfl, rfl, rfl⟩, hsel⟩

set_option maxRecDepth 20000 in
/-- C8, on two runs of `reconcilePodDisruptionBudget` for `minimalGCP`.  Over an empty store
the run creates exactly one budget, `ns1/minimal`, owned by the Application and selecting
`app: minimal`.  Over a store that holds the budget of a first run, the run returns no error
and writes nothing, and the stored budget selects `app: minimal`. -/
theorem pdb_identity_owner_selector_witness :
    (writes ((labellingReconciler (emptyStore PodDisruptionBudget)).reconcilePodDisruptionBudget
      minimalGCP).2).map (fun pdb =>
        (pdb.ObjectMeta.Namespace, pdb.ObjectMeta.Name, pdb.ObjectMeta.OwnerReferences,
          pdb.Spec.Selector)) =
      [("ns1", "minimal",
        [{ APIVersion := "skiperator.kartverket.no/v1alpha1", Kind := "Application",
           Name := "minimal", UID := "uid-minimal", Controller := some true,
           BlockOwnerDeletion := some true }],
        some { MatchLabels := [("app", "minimal")], MatchExpressions := [] })] ∧
    (∀ pdb ∈ writes ((labellingReconciler
        (emptyStore PodDisruptionBudget)).reconcilePodDisruptionBudget minimalGCP).2,
      pdb.Spec.Selector = some { MatchLabels := [("app", "minimal")], MatchExpressions := [] }) ∧
    ((labellingReconciler (storeOf [({ Namespace := "ns1", Name := "minimal" },
        createdBudget)])).reconcilePodDisruptionBudget minimalGCP).1 = none ∧
    writes ((labellingReconciler (storeOf [({ Namespace := "ns1", Name := "minimal" },
        createdBudget)])).reconcilePodDisruptionBudget minimalGCP).2 = [] ∧
    (∃ pdb,
      (labellingReconciler (storeOf [({ Namespace := "ns1", Name := "minimal" },
        createdBudget)])).client.Get { Namespace := "ns1", Name := "minimal" } = Except.ok pdb ∧
      pdb.Spec.Selector =
        some { MatchLabels := [("app", "minimal")], MatchExpressions := [] }) := by
  have h1 := pdb_identity_owner_selector (labellingReconciler (emptyStore PodDisruptionBudget))
    minimalGCP
  have h2 := pdb_identity_owner_selector
    (labellingReconciler (storeOf [({ Namespace := "ns1", Name := "minimal" }, createdBudget)]))
    minimalGCP
  refine ⟨by decide, fun pdb hpdb => (h1.1 pdb hpdb).2.2.2, by decide, by decide, ?_⟩
  obtain ⟨pdb, hget, -, -, -, hsel⟩ := h2.2 (by decide) (by decide)
  exact ⟨pdb, hget, hsel⟩

/-! ### C9: Status writes and result -/

/-- C9. In every run of `reconcilePodDisruptionBudget` the returned error is the error of the
apply step (`CreateOrPatch`), so an error is returned exactly when the apply step failed; the
trace, and with it the status writes, starts with `Progressing` and ends with the finished
outcome carrying that same error, both under `"PodDisruptionBudget"`; and whatever the three
status writes themselves return, the error returned and the trace are the same. -/
theorem pdb_status_and_result (r : ApplicationReconciler) (application : Application) :
    (r.reconcilePodDisruptionBudget application).1 =
      (CreateOrPatch podDisruptionBudgetKind r.client (ApplicationReconciler.pdb application)
        (r.mutateFn application "PodDisruptionBudget" [("app", application.Name)])).2.1 ∧
    ((r.reconcilePodDisruptionBudget application).1.isSome ↔
      (CreateOrPatch podDisruptionBudgetKind r.client (ApplicationReconciler.pdb application)
        (r.mutateFn application "PodDisruptionBudget" [("app", application.Name)])).2.1.isSome) ∧
    (∃ middle,
      (r.reconcilePodDisruptionBudget application).2 =
        Call.SetControllerProgressing "PodDisruptionBudget" :: (middle ++
          [Call.SetControllerFinishedOutcome "PodDisruptionBudget"
            (r.reconcilePodDisruptionBudget application).1]) ∧
      statusWrites (r.reconcilePodDisruptionBudget application).2 =
        Call.SetControllerProgressing "PodDisruptionBudget" :: (statusWrites middle ++
          [Call.SetControllerFinishedOutcome "PodDisruptionBudget"
            (r.reconcilePodDisruptionBudget application).1])) ∧
    (∀ (progressing : Application → String → Option Error)
      (failed : Application → String → Error → Option Error)
      (finished : Application → String → Option Error → Option Error),
      ({ r with
          SetControllerProgressing := progressing
          SetControllerError := failed
          SetControllerFinishedOutcome := finished } :
        ApplicationReconciler).reconcilePodDisruptionBudget application =
        r.reconcilePodDisruptionBudget application) := by
  refine ⟨rfl, Iff.rfl, ⟨_, rfl, ?_⟩, ?_⟩
  · unfold ApplicationReconciler.reconcilePodDisruptionBudget
    simp [statusWrites, Call.isStatusWrite]
  · intro progressing failed finished
    rfl

/-- C9, on two runs for `minimal`: over an empty store the apply step succeeds and the run ends
with the finished outcome `nil`; over a store that cannot be reached, even with every status
write failing, the run returns the error of the apply step and ends with that error. -/
theorem pdb_status_and_result_witness :
    ((plainReconciler (emptyStore PodDisruptionBudget)).reconcilePodDisruptionBudget minimal).1 =
      none ∧
    statusWrites
      ((plainReconciler (emptyStore PodDisruptionBudget)).reconcilePodDisruptionBudget minimal).2 =
      [Call.SetControllerProgressing "PodDisruptionBudget",
       Call.SetControllerFinishedOutcome "PodDisruptionBudget" none] ∧
    ({ plainReconciler (brokenStore PodDisruptionBudget) with
        SetControllerProgressing := fun _ _ => some unavailable
        SetControllerError := fun _ _ _ => some unavailable
        SetControllerFinishedOutcome := fun _ _ _ => some unavailable } :
      ApplicationReconciler).reconcilePodDisruptionBudget minimal =
      (some unavailable,
        [Call.SetControllerProgressing "PodDisruptionBudget",
         Call.SetControllerFinishedOutcome "PodDisruptionBudget" (some unavailable)]) := by
  refine ⟨by decide, by decide, ?_⟩
  rw [(pdb_status_and_result (plainReconciler (brokenStore PodDisruptionBudget)) minimal).2.2.2]
  decide

/-! ### C10: Lookup failure -/

/-- C10. If the lookup of the shared record `gcp-identity-config` in `skiperator-system` fails
with an error that is not NotFound, `ConfigMapReconciler.Reconcile` returns exactly that error
and makes no call at all: no event, no create, no patch. -/
theorem reconcile_lookup_failure (r : ConfigMapReconciler)
    (FillDefaults : Application → Application) (application : Application) (e : Error)
    (hget : r.client.Get { Namespace := "skiperator-system", Name := "gcp-identity-config" } =
      Except.error e)
    (hnf : IsNotFound (some e) = false) :
    r.Reconcile FillDefaults application = (some e, []) := by
  unfold ConfigMapReconciler.Reconcile
  simp [hget, hnf]

set_option maxRecDepth 20000 in
/-- C10, on `minimalGCP`.  Over a store that cannot be reached (reason `ServiceUnavailable`,
code 503) the run returns that error and makes no call.  A bare 404 without a reason is not
such an error: `IsNotFound` holds for it, and the run warns, creates the record and returns no
error. -/
theorem reconcile_lookup_failure_witness :
    IsNotFound (some unavailable) = false ∧
    ConfigMapReconciler.Reconcile { client := brokenStore ConfigMap, scheme := registered }
      (fun a => a) minimalGCP = (some unavailable, []) ∧
    IsNotFound (some pageNotFound) = true ∧
    (ConfigMapReconciler.Reconcile
      { client := { emptyStore ConfigMap with Get := fun _ => Except.error pageNotFound },
        scheme := registered }
      (fun a => a) minimalGCP).1 = none ∧
    (ConfigMapReconciler.Reconcile
      { client := { emptyStore ConfigMap with Get := fun _ => Except.error pageNotFound },
        scheme := registered }
      (fun a => a) minimalGCP).2.length = 2 :=
  ⟨by decide,
    reconcile_lookup_failure { client := brokenStore ConfigMap, scheme := registered }
      (fun a => a) minimalGCP unavailable rfl (by decide),
    by decide, by decide, by decide⟩

end Skiperator
